import Mathlib

/-!
# mocktitlements: the user directory pipeline of `main.go`

A shallow embedding of `parseUsers`, `getUsers`, `findUserByID`, `getUserFromIdentity`,
`getUser` and the handlers, together with the two `strconv` functions (`ParseBool`, `Atoi`)
whose results `parseUsers` stores in the user record.

Conventions of the embedding
* A Go `string` is a Lean `String`; `len(s)` is `String.utf8ByteSize`. The byte loops of
  `strconv` are run over the characters of the string: every byte of a multi-byte
  character is at least `0x80`, so it is neither a sign nor a digit, and the scan stops
  with the same result at the same place.
* A Go `map[string][]string` is an association list; indexing a key that is absent (or
  indexing a nil map) gives the empty slice.
* A Go function returning `(T, error)` returns a `GoResult T`: the value with a nil
  error, an error, or a run-time panic.
* Logging (`log.Info`, `fmt.Printf`) has no effect on any returned value and is left out.
* The decoders of the standard library (`json.Unmarshal`, `base64.StdEncoding.DecodeString`)
  and the outcome of the HTTP call `k.Get` are parameters of the functions that use them.
-/

set_option autoImplicit false

namespace Mocktitlements

/-! ## Errors and results -/

/-- The two sentinel errors wrapped by a `*strconv.NumError`. -/
inductive NumErrKind where
  | ErrSyntax
  | ErrRange
  deriving DecidableEq, Repr

/-- Go error values, told apart by the code that creates them. -/
inductive GoError where
  /-- An error made by `fmt.Errorf` in `main.go`, with its message. -/
  | errorf (msg : String)
  /-- A `*strconv.NumError` with its `Func`, `Num` and `Err` fields. -/
  | numError (func : String) (num : String) (kind : NumErrKind)
  /-- An error returned by `json.Unmarshal`. -/
  | jsonErr (msg : String)
  /-- An error returned by `io.ReadAll` on the response body. -/
  | readErr (msg : String)
  /-- An error returned by `(*http.Client).Get`. -/
  | httpErr (msg : String)
  /-- An error returned by `base64.StdEncoding.DecodeString`. -/
  | base64Err (msg : String)
  deriving DecidableEq, Repr

/-- Outcome of a Go call of result type `(T, error)`. -/
inductive GoResult (α : Type) where
  /-- Returned `(v, nil)`. -/
  | ok (v : α)
  /-- Returned a non-nil error (the value next to it is nil or a zero value). -/
  | err (e : GoError)
  /-- Did not return: a run-time panic with this message. -/
  | panic (msg : String)
  deriving DecidableEq, Repr

/-- Sequencing of Go statements: an error or a panic ends the function. -/
def GoResult.bind {α β : Type} (x : GoResult α) (f : α → GoResult β) : GoResult β :=
  match x with
  | .ok v => f v
  | .err e => .err e
  | .panic m => .panic m

instance : Monad GoResult where
  pure := GoResult.ok
  bind := GoResult.bind

/-! ## Data model -/

/-- The `User` struct (`main.go`, lines 64-80). `int` fields are mathematical integers;
the field `Type` is written `Type_`, as `Type` is a reserved word. -/
structure User where
  Username : String
  ID : Int
  Email : String
  FirstName : String
  LastName : String
  AccountNumber : String
  AddressString : String
  IsActive : Bool
  IsOrgAdmin : Bool
  IsInternal : Bool
  Locale : String
  OrgID : Int
  DisplayName : String
  Type_ : String
  Entitlements : String
  deriving DecidableEq, Repr

/-- A Go `map[string][]string`. -/
abbrev AttrMap := List (String × List String)

/-- The map index expression `m[key]`: the zero value (empty slice) when the key is absent. -/
def AttrMap.index (m : AttrMap) (key : String) : List String :=
  (List.lookup key m).getD []

/-- The `usersSpec` struct (`main.go`, lines 125-132). -/
structure usersSpec where
  Username : String
  Enabled : Bool
  FirstName : String
  LastName : String
  Email : String
  Attributes : AttrMap
  deriving DecidableEq, Repr

/-- The slice index expression `xs[0]`, which panics on an empty slice. -/
def index0 (xs : List String) : GoResult String :=
  match xs with
  | [] => .panic "runtime error: index out of range [0] with length 0"
  | x :: _ => .ok x

/-! ## strconv -/

/-- The value of `strconv.IntSize` on a 64-bit target. -/
def intSize : Nat := 64

/-- Function `strconv.ParseBool`: the value and the error it returns. -/
def ParseBool (str : String) : Bool × Option GoError :=
  if str = "1" ∨ str = "t" ∨ str = "T" ∨ str = "true" ∨ str = "TRUE" ∨ str = "True" then
    (true, none)
  else if str = "0" ∨ str = "f" ∨ str = "F" ∨ str = "false" ∨ str = "FALSE" ∨ str = "False" then
    (false, none)
  else
    (false, some (.numError "ParseBool" str .ErrSyntax))

/-- The digit loop of `strconv.ParseUint(s, 10, 0)` on the remaining characters, with the
`uint64` accumulator `n`. A character that is not a decimal digit is a letter of value at
least 10 (the base), an underscore (only skipped in base 0) or something else: a syntax
error in each case. Arithmetic on `n` is modulo `2 ^ 64`. -/
def ParseUint.loop (cutoff maxVal : Nat) : List Char → Nat → Nat × Option NumErrKind
  | [], n => (n, none)
  | c :: cs, n =>
    if c.isDigit then
      let d := c.toNat - 48
      if n ≥ cutoff then
        (maxVal, some .ErrRange)
      else
        let n10 := (n * 10) % 2 ^ 64
        let n1 := (n10 + d) % 2 ^ 64
        if n1 < n10 ∨ n1 > maxVal then
          (maxVal, some .ErrRange)
        else
          ParseUint.loop cutoff maxVal cs n1
    else
      (0, some .ErrSyntax)

/-- Function `strconv.ParseUint(s, 10, 0)`: base 10, `bitSize` 0 (that is `IntSize`). -/
def ParseUint (s : List Char) : Nat × Option NumErrKind :=
  if s = [] then
    (0, some .ErrSyntax)
  else
    let maxUint64 := 2 ^ 64 - 1
    let cutoff := maxUint64 / 10 + 1
    let maxVal := 2 ^ intSize - 1
    ParseUint.loop cutoff maxVal s 0

/-- Function `strconv.ParseInt(s, 10, 0)`. A range error of `ParseUint` is not returned at
once: its value `maxVal` goes through the cutoff test like any other. Below the cutoff the
conversion `int64(un)` is exact; at `un = cutoff` after a minus sign the conversion and the
negation both wrap around, and the result is `-cutoff`, as here. -/
def ParseInt (s : List Char) : Int × Option NumErrKind :=
  match s with
  | [] => (0, some .ErrSyntax)
  | c :: cs =>
    let neg := c = '-'
    let body := if c = '+' ∨ c = '-' then cs else s
    match ParseUint body with
    | (_, some .ErrSyntax) => (0, some .ErrSyntax)
    | (un, _) =>
      let cutoff := 2 ^ (intSize - 1)
      if ¬ neg ∧ un ≥ cutoff then
        ((cutoff : Int) - 1, some .ErrRange)
      else if neg ∧ un > cutoff then
        (-(cutoff : Int), some .ErrRange)
      else if neg then
        (-(un : Int), none)
      else
        ((un : Int), none)

/-- The fast path loop of `strconv.Atoi`: `none` when a character is not a digit. -/
def Atoi.fastLoop : List Char → Int → Option Int
  | [], n => some n
  | ch :: rest, n =>
    if ch.isDigit then Atoi.fastLoop rest (n * 10 + ((ch.toNat - 48 : Nat) : Int)) else none

/-- Function `strconv.Atoi`: the value and the error it returns. Strings of fewer than 19
bytes take the fast path (their value is below `10 ^ 18`, so `int` arithmetic is exact);
the others go through `ParseInt(s, 10, 0)`. -/
def Atoi (s : String) : Int × Option GoError :=
  let sLen := s.utf8ByteSize
  if (intSize = 32 ∧ 0 < sLen ∧ sLen < 10) ∨ (intSize = 64 ∧ 0 < sLen ∧ sLen < 19) then
    match s.data with
    | [] => (0, some (.numError "Atoi" s .ErrSyntax))
    | c :: cs =>
      let body := if c = '-' ∨ c = '+' then cs else c :: cs
      if body.length < 1 then
        (0, some (.numError "Atoi" s .ErrSyntax))
      else
        match Atoi.fastLoop body 0 with
        | none => (0, some (.numError "Atoi" s .ErrSyntax))
        | some n => (if c = '-' then -n else n, none)
  else
    match ParseInt s.data with
    | (i64, some kind) => (i64, some (.numError "Atoi" s kind))
    | (i64, none) => (i64, none)

/-! ## parseUsers -/

/-- The slice `attributesToCheck` (`main.go`, line 160). -/
def attributesToCheck : List String :=
  ["is_active", "is_org_admin", "is_internal", "account_id", "org_id", "entitlements",
    "account_number"]

/-- The inner loop of `parseUsers` (lines 161-168): the final value of `valid`. The
`continue` is the last statement of the loop body, so every attribute is visited. -/
def checkAttributes (user : usersSpec) : Bool :=
  attributesToCheck.foldl
    (fun valid attr => if (user.Attributes.index attr).length = 0 then false else valid) true

/-- Function `strings.Join`. -/
def stringsJoin (elems : List String) (sep : String) : String :=
  sep.intercalate elems

/-- The loop of `parseUsers` over the decoded entries (lines 159-216), with the slice
`users` built so far. The errors of `ParseBool` and `Atoi` are assigned to the blank
identifier, so only their first results are kept; `fmt.Sprintf` with the format of line 193
puts its argument between an opening and a closing brace. -/
def parseUsers.loop : List usersSpec → List User → GoResult (List User)
  | [], users => .ok users
  | user :: rest, users =>
    let valid := checkAttributes user
    if ¬ valid then
      parseUsers.loop rest users
    else do
      let IsActiveRaw ← index0 (user.Attributes.index "is_active")
      let IsActive := (ParseBool IsActiveRaw).1
      let IsOrgAdminRaw ← index0 (user.Attributes.index "is_org_admin")
      let IsOrgAdmin := (ParseBool IsOrgAdminRaw).1
      let IsInternalRaw ← index0 (user.Attributes.index "is_internal")
      let IsInternal := (ParseBool IsInternalRaw).1
      let IDRaw ← index0 (user.Attributes.index "account_id")
      let ID := (Atoi IDRaw).1
      let OrgIDRaw ← index0 (user.Attributes.index "org_id")
      let OrgID := (Atoi OrgIDRaw).1
      let entitle ←
        if (user.Attributes.index "newEntitlements").length ≠ 0 then
          pure ("\x7b" ++ stringsJoin (user.Attributes.index "newEntitlements") "," ++ "\x7d")
        else
          index0 (user.Attributes.index "entitlements")
      let AccountNumber ← index0 (user.Attributes.index "account_number")
      parseUsers.loop rest (users ++ [
        { Username := user.Username
          ID := ID
          Email := user.Email
          FirstName := user.FirstName
          LastName := user.LastName
          AccountNumber := AccountNumber
          AddressString := "unknown"
          IsActive := IsActive
          IsOrgAdmin := IsOrgAdmin
          IsInternal := IsInternal
          Locale := "en_US"
          OrgID := OrgID
          DisplayName := user.FirstName
          Type_ := "User"
          Entitlements := entitle }])

/-- Function `parseUsers` (lines 148-219). The JSON decoder of the standard library is a
parameter: `unmarshal data` is what `json.Unmarshal(data, obj)` leaves in `obj`, or its
error. -/
def parseUsers (unmarshal : String → Except String (List usersSpec)) (data : String) :
    GoResult (List User) :=
  match unmarshal data with
  | .error msg => .err (.jsonErr msg)
  | .ok obj => parseUsers.loop obj []

/-! ## getUsers and findUserByID -/

/-- An `*http.Response`, as far as `getUsers` uses it: what `io.ReadAll(resp.Body)`
returns, the bytes read or an error. -/
structure Response where
  Body : Except String String

/-- What `k.Get(url)` returns to `getUsers`: the response pointer (`none` is nil) and the
error (`none` is nil). -/
structure GetResult where
  resp : Option Response
  err : Option String

/-- Function `getUsers` (lines 134-146). A non-nil error of `k.Get` is only printed. The
operand `resp.Body` of the `defer` statement is evaluated at once, which dereferences
`resp`. -/
def getUsers (unmarshal : String → Except String (List usersSpec)) (get : GetResult) :
    GoResult (List User) :=
  match get.resp with
  | none => .panic "runtime error: invalid memory address or nil pointer dereference"
  | some resp =>
    match resp.Body with
    | .error msg => .err (.readErr msg)
    | .ok data => parseUsers unmarshal data

/-- The loop of `findUserByID` (lines 105-110). -/
def findUserByID.loop (username : String) : List User → GoResult User
  | [] => .err (.errorf "User is not known")
  | user :: rest =>
    if user.Username = username then .ok user else findUserByID.loop username rest

/-- Function `findUserByID` (lines 98-111); the returned pointer is to a copy of the
matching element, here the element itself. -/
def findUserByID (unmarshal : String → Except String (List usersSpec)) (get : GetResult)
    (username : String) : GoResult User :=
  match getUsers unmarshal get with
  | .err e => .err e
  | .panic m => .panic m
  | .ok users => findUserByID.loop username users

/-! ## getUserFromIdentity, getUser and the handlers -/

/-- The text that `strconv` puts after the quoted input in the message of a `NumError`. -/
def NumErrKind.text : NumErrKind → String
  | .ErrSyntax => "invalid syntax"
  | .ErrRange => "value out of range"

/-- Method `Error()` of an error value. For the errors of the standard library it is the
message they carry; the message of a `NumError` quotes its input with `String.quote` in
place of `strconv.Quote` (no such error reaches a caller of `Error()` in `main.go`). -/
def GoError.Error : GoError → String
  | .errorf msg => msg
  | .numError func num kind => "strconv." ++ func ++ ": parsing " ++ num.quote ++ ": " ++ kind.text
  | .jsonErr msg => msg
  | .readErr msg => msg
  | .httpErr msg => msg
  | .base64Err msg => msg

/-- The field `User` of `identity.Identity`, as far as `main.go` reads it. -/
structure IdentityUser where
  Username : String
  deriving DecidableEq, Repr

/-- The struct `identity.Identity`, as far as `main.go` reads it (`Type` is written
`Type_`). -/
structure Identity where
  Type_ : String
  User : IdentityUser
  deriving DecidableEq, Repr

/-- The struct `identity.XRHID` of the middleware library, as far as `main.go` reads it. -/
structure XRHID where
  Identity : Identity
  deriving DecidableEq, Repr

/-- Function `getUserFromIdentity` (lines 35-62) on the value `b64Identity` of the header
x-rh-identity (the empty string when the request has none). The two decoders of the
standard library are parameters. `DecodeString` is `base64.StdEncoding.DecodeString`.
`unmarshalXRHID bytes` is the outcome of `json.Unmarshal(bytes, &identity)`, whose target
is the address of the pointer variable `identity`: an error, or what the pointer holds
afterwards, `none` when the decoder has set it to nil. The field access of line 52
dereferences that pointer.

The second component counts the calls of `k.Get`: there is one in `getUsers`, its first
statement, and `getUsers` is called once by `findUserByID`, as its first statement; no
other code of `main.go` calls `k.Get`. -/
def getUserFromIdentity (DecodeString : String → Except String String)
    (unmarshalXRHID : String → Except String (Option XRHID))
    (unmarshal : String → Except String (List usersSpec)) (get : GetResult)
    (b64Identity : String) : GoResult User × Nat :=
  if b64Identity = "" then
    (.err (.errorf "no x-rh-identity header"), 0)
  else
    match DecodeString b64Identity with
    | .error msg => (.err (.base64Err msg), 0)
    | .ok decodedIdentity =>
      match unmarshalXRHID decodedIdentity with
      | .error msg => (.err (.jsonErr msg), 0)
      | .ok none =>
        (.panic "runtime error: invalid memory address or nil pointer dereference", 0)
      | .ok (some identity) =>
        if identity.Identity.Type_ ≠ "User" ∨ identity.Identity.User.Username = "" then
          (.err (.errorf "x-rh-identity does not contain username ok"), 0)
        else
          match findUserByID unmarshal get identity.Identity.User.Username with
          | .err e => (.err e, 1)
          | .panic m => (.panic m, 1)
          | .ok user => (.ok user, 1)

/-- An `*http.Request`, as far as the handlers read it: the path of its URL and what
`r.Header.Get("x-rh-identity")` returns. -/
structure Request where
  Path : String
  xRhIdentity : String
  deriving DecidableEq, Repr

/-- Function `getUser` (lines 113-120). -/
def getUser (DecodeString : String → Except String String)
    (unmarshalXRHID : String → Except String (Option XRHID))
    (unmarshal : String → Except String (List usersSpec)) (get : GetResult)
    (r : Request) : GoResult User :=
  match (getUserFromIdentity DecodeString unmarshalXRHID unmarshal get r.xRhIdentity).1 with
  | .err e => .err (.errorf ("couldn\x27t find user: " ++ e.Error))
  | .panic m => .panic m
  | .ok userObj => .ok userObj

/-- What a handler has written to its `http.ResponseWriter` when it returns: the status
code, the content type it has set (`none` when it has set none) and the body. -/
structure Reply where
  status : Nat
  contentType : Option String
  body : String
  deriving DecidableEq, Repr

/-- Outcome of a handler: it returns, having written a reply, or it panics. -/
inductive Served where
  | reply (r : Reply)
  | panic (msg : String)
  deriving DecidableEq, Repr

/-- Function `http.Error(w, msg, code)`: the status code, a plain text content type and
the message followed by a newline. -/
def httpError (msg : String) (code : Nat) : Reply :=
  { status := code, contentType := some "text/plain; charset=utf-8", body := msg ++ "\n" }

/-- The value of `http.StatusForbidden`. -/
def StatusForbidden : Nat := 403

/-- Function `entitlements` (lines 221-230); a first write without a status code sends
the status 200. -/
def entitlements (DecodeString : String → Except String String)
    (unmarshalXRHID : String → Except String (Option XRHID))
    (unmarshal : String → Except String (List usersSpec)) (get : GetResult)
    (r : Request) : Served :=
  match getUser DecodeString unmarshalXRHID unmarshal get r with
  | .err e => .reply (httpError ("couldn\x27t auth user: " ++ e.Error) StatusForbidden)
  | .panic m => .panic m
  | .ok userObj => .reply { status := 200, contentType := none, body := userObj.Entitlements }

/-- Function `compliance` (lines 232-241). -/
def compliance (DecodeString : String → Except String String)
    (unmarshalXRHID : String → Except String (Option XRHID))
    (unmarshal : String → Except String (List usersSpec)) (get : GetResult)
    (r : Request) : Served :=
  match getUser DecodeString unmarshalXRHID unmarshal get r with
  | .err e => .reply (httpError ("couldn\x27t auth user: " ++ e.Error) StatusForbidden)
  | .panic m => .panic m
  | .ok _ =>
    .reply { status := 200, contentType := none,
             body := "\"result\": \"OK\"\n\"description\":\"\" " }

/-- Function `statusHandler` (lines 122-123): nothing is written, so the server sends an
empty reply of status 200. -/
def statusHandler : Served :=
  .reply { status := 200, contentType := none, body := "" }

/-- Function `mainHandler` (lines 243-253); a path that matches no case is served like
the status path, with nothing written. -/
def mainHandler (DecodeString : String → Except String String)
    (unmarshalXRHID : String → Except String (Option XRHID))
    (unmarshal : String → Except String (List usersSpec)) (get : GetResult)
    (r : Request) : Served :=
  if r.Path = "/" then statusHandler
  else if r.Path = "/api/entitlements/v1/services" then
    entitlements DecodeString unmarshalXRHID unmarshal get r
  else if r.Path = "/api/entitlements/v1/compliance" then
    compliance DecodeString unmarshalXRHID unmarshal get r
  else .reply { status := 200, contentType := none, body := "" }

/-! ## Specification vocabulary -/

/-- The seven attributes is_active, is_org_admin, is_internal, account_id, org_id,
entitlements and account_number all have a non-empty value list. -/
def HasRequired (e : usersSpec) : Prop :=
  e.Attributes.index "is_active" ≠ [] ∧ e.Attributes.index "is_org_admin" ≠ [] ∧
  e.Attributes.index "is_internal" ≠ [] ∧ e.Attributes.index "account_id" ≠ [] ∧
  e.Attributes.index "org_id" ≠ [] ∧ e.Attributes.index "entitlements" ≠ [] ∧
  e.Attributes.index "account_number" ≠ []

instance (e : usersSpec) : Decidable (HasRequired e) := by
  unfold HasRequired; infer_instance

/-- The entries of a list that have the seven required attributes, in order. -/
def keptEntries (entries : List usersSpec) : List usersSpec :=
  entries.filter (fun e => decide (HasRequired e))

/-- The first value of an attribute of an entry, or `none` when it has no value. -/
def firstValue (e : usersSpec) (key : String) : Option String :=
  (e.Attributes.index key).head?

/-- The record appended for an entry that passed the attribute check. -/
def recordOf (e : usersSpec) : User :=
  { Username := e.Username
    ID := (Atoi ((firstValue e "account_id").getD "")).1
    Email := e.Email
    FirstName := e.FirstName
    LastName := e.LastName
    AccountNumber := (firstValue e "account_number").getD ""
    AddressString := "unknown"
    IsActive := (ParseBool ((firstValue e "is_active").getD "")).1
    IsOrgAdmin := (ParseBool ((firstValue e "is_org_admin").getD "")).1
    IsInternal := (ParseBool ((firstValue e "is_internal").getD "")).1
    Locale := "en_US"
    OrgID := (Atoi ((firstValue e "org_id").getD "")).1
    DisplayName := e.FirstName
    Type_ := "User"
    Entitlements :=
      if e.Attributes.index "newEntitlements" = [] then
        (firstValue e "entitlements").getD ""
      else
        "\x7b" ++ stringsJoin (e.Attributes.index "newEntitlements") "," ++ "\x7d" }

/-- The strings `strconv.ParseBool` reads as true. -/
def acceptedTrue : List String := ["1", "t", "T", "TRUE", "true", "True"]

/-- The strings `strconv.ParseBool` reads as false. -/
def acceptedFalse : List String := ["0", "f", "F", "FALSE", "false", "False"]

/-- The boolean `b` is the coercion of the string `s`: true for an accepted true literal,
false for an accepted false literal and false for every other string. -/
def IsBoolCoercion (s : String) (b : Bool) : Prop :=
  (s ∈ acceptedTrue → b = true) ∧ (s ∈ acceptedFalse → b = false) ∧
  (s ∉ acceptedTrue → s ∉ acceptedFalse → b = false)

/-- The number read from the characters `cs` as decimal digits, continuing the number `n`. -/
def digitsFrom (n : Nat) (cs : List Char) : Nat :=
  cs.foldl (fun n c => n * 10 + (c.toNat - 48)) n

/-- The value of a run of decimal digits. -/
def digitsValue (cs : List Char) : Nat :=
  digitsFrom 0 cs

/-- The string starts with a minus sign. -/
def startsWithMinus (s : String) : Prop :=
  s.data.head? = some '-'

instance (s : String) : Decidable (startsWithMinus s) := by
  unfold startsWithMinus; infer_instance

/-- The characters of a string after its optional leading sign, `+` or `-`. -/
def unsignedPart (s : String) : List Char :=
  match s.data with
  | [] => []
  | c :: cs => if c = '+' ∨ c = '-' then cs else c :: cs

/-- The longest run of decimal digits at the start of the unsigned part of a string. -/
def leadingDigits (s : String) : List Char :=
  (unsignedPart s).takeWhile Char.isDigit

/-- The string is a decimal integer: an optional sign and one or more decimal digits. -/
def IsDecimal (s : String) : Prop :=
  unsignedPart s ≠ [] ∧ leadingDigits s = unsignedPart s

instance (s : String) : Decidable (IsDecimal s) := by
  unfold IsDecimal; infer_instance

/-- The largest value of a 64-bit `int`. -/
def maxInt : Int := 2 ^ 63 - 1

/-- The smallest value of a 64-bit `int`. -/
def minInt : Int := -(2 ^ 63)

/-- The integer `n` is what `strconv.Atoi` gives for the string `s`, the error put aside.
A decimal integer within the range of `int` gives its value; one beyond the range gives
the nearest end of the range. A string that is no decimal integer gives 0, unless its
leading digits already pass the range of `uint64`, which gives the end of the range. -/
def IsIntCoercion (s : String) (n : Int) : Prop :=
  (IsDecimal s → ¬ startsWithMinus s → digitsValue (leadingDigits s) < 2 ^ 63 →
    n = digitsValue (leadingDigits s)) ∧
  (IsDecimal s → startsWithMinus s → digitsValue (leadingDigits s) ≤ 2 ^ 63 →
    n = -(digitsValue (leadingDigits s) : Int)) ∧
  (IsDecimal s → ¬ startsWithMinus s → 2 ^ 63 ≤ digitsValue (leadingDigits s) → n = maxInt) ∧
  (IsDecimal s → startsWithMinus s → 2 ^ 63 < digitsValue (leadingDigits s) → n = minInt) ∧
  (¬ IsDecimal s → digitsValue (leadingDigits s) < 2 ^ 64 → n = 0) ∧
  (¬ IsDecimal s → ¬ startsWithMinus s → 2 ^ 64 ≤ digitsValue (leadingDigits s) →
    n = maxInt) ∧
  (¬ IsDecimal s → startsWithMinus s → 2 ^ 64 ≤ digitsValue (leadingDigits s) → n = minInt)

/-- The value of `strconv.Atoi` in closed form, by the cases of `IsIntCoercion`. -/
def atoiValue (s : String) : Int :=
  if 2 ^ 64 ≤ digitsValue (leadingDigits s) then
    if startsWithMinus s then minInt else maxInt
  else if ¬ IsDecimal s then 0
  else if startsWithMinus s then
    if 2 ^ 63 < digitsValue (leadingDigits s) then minInt
    else -(digitsValue (leadingDigits s) : Int)
  else
    if 2 ^ 63 ≤ digitsValue (leadingDigits s) then maxInt
    else (digitsValue (leadingDigits s) : Int)

/-- The attributes that `parseUsers` reads: the seven it checks and newEntitlements. -/
def readAttributes : List String :=
  ["is_active", "is_org_admin", "is_internal", "account_id", "org_id", "entitlements",
    "account_number", "newEntitlements"]

/-- Two raw entries differ at most in the enabled flag and in attributes that
`parseUsers` does not read: they have the same username, first name, last name and email,
and the same value list for each attribute of `readAttributes`. -/
def SameRead (e1 e2 : usersSpec) : Prop :=
  e1.Username = e2.Username ∧ e1.FirstName = e2.FirstName ∧ e1.LastName = e2.LastName ∧
  e1.Email = e2.Email ∧
  ∀ key ∈ readAttributes, e1.Attributes.index key = e2.Attributes.index key

/-! ## Sample inputs -/

/-- A decoder that yields the given entries, whatever the bytes. -/
def decodesTo (entries : List usersSpec) : String → Except String (List usersSpec) :=
  fun _ => .ok entries

/-- The entry `bob` of the end-to-end scenario. -/
def bob : usersSpec :=
  { Username := "bob", Enabled := false, FirstName := "", LastName := "", Email := "",
    Attributes := [("is_active", ["true"]), ("is_org_admin", ["false"]),
      ("is_internal", ["false"]), ("account_id", ["42"]), ("org_id", ["7"]),
      ("entitlements", ["\x7b\"svc\":1\x7d"]), ("account_number", ["AC1"])] }

/-- The record of `bob` in the end-to-end scenario. -/
def bobRecord : User :=
  { Username := "bob", ID := 42, Email := "", FirstName := "", LastName := "",
    AccountNumber := "AC1", AddressString := "unknown", IsActive := true,
    IsOrgAdmin := false, IsInternal := false, Locale := "en_US", OrgID := 7,
    DisplayName := "", Type_ := "User", Entitlements := "\x7b\"svc\":1\x7d" }

/-- An entry like `bob` without the attribute account_number. -/
def noAccountNumber : usersSpec :=
  { bob with
    Username := "dave"
    Attributes := [("is_active", ["true"]), ("is_org_admin", ["false"]),
      ("is_internal", ["false"]), ("account_id", ["42"]), ("org_id", ["7"]),
      ("entitlements", ["\x7b\"svc\":1\x7d"])] }

/-- An entry with newEntitlements `["x", "y"]` next to an entitlements attribute. -/
def erin : usersSpec :=
  { bob with
    Username := "erin"
    Attributes := ("newEntitlements", ["x", "y"]) :: bob.Attributes }

/-- An entry with newEntitlements and the six other attributes, without entitlements. -/
def carol : usersSpec :=
  { Username := "carol", Enabled := true, FirstName := "Carol", LastName := "C",
    Email := "carol@example.com",
    Attributes := [("is_active", ["true"]), ("is_org_admin", ["false"]),
      ("is_internal", ["false"]), ("account_id", ["42"]), ("org_id", ["7"]),
      ("newEntitlements", ["x", "y"]), ("account_number", ["AC1"])] }

/-- An entry whose three boolean attributes are not boolean literals. -/
def frank : usersSpec :=
  { bob with
    Username := "frank"
    Attributes := [("is_active", ["yes"]), ("is_org_admin", [""]),
      ("is_internal", ["TRUE "]), ("account_id", ["42"]), ("org_id", ["7"]),
      ("entitlements", ["e"]), ("account_number", ["AC1"])] }

/-- A second entry with the username bob and another account. -/
def bobAgain : usersSpec :=
  { bob with
    Attributes := [("is_active", ["false"]), ("is_org_admin", ["false"]),
      ("is_internal", ["false"]), ("account_id", ["43"]), ("org_id", ["8"]),
      ("entitlements", ["later"]), ("account_number", ["AC2"])] }

/-- A call of `k.Get` that succeeds with a readable body. -/
def goodGet : GetResult :=
  { resp := some { Body := .ok "[]" }, err := none }

/-- An entry whose account_id and org_id are digit strings beyond the range of `int`. -/
def grace : usersSpec :=
  { bob with
    Username := "grace"
    Attributes := [("is_active", ["true"]), ("is_org_admin", ["false"]),
      ("is_internal", ["false"]), ("account_id", ["99999999999999999999"]),
      ("org_id", ["-99999999999999999999"]), ("entitlements", ["e"]),
      ("account_number", ["AC1"])] }

/-- The record that `parseUsers` outputs for `grace`. -/
def graceRecord : User :=
  { Username := "grace", ID := 9223372036854775807, Email := "", FirstName := "",
    LastName := "", AccountNumber := "AC1", AddressString := "unknown", IsActive := true,
    IsOrgAdmin := false, IsInternal := false, Locale := "en_US",
    OrgID := -9223372036854775808, DisplayName := "", Type_ := "User", Entitlements := "e" }

/-- An entry with a nil attribute map. -/
def noAttributes : usersSpec :=
  { Username := "nobody", Enabled := true, FirstName := "", LastName := "", Email := "",
    Attributes := [] }

/-- An entry whose required attributes are present with empty value lists. -/
def emptyValues : usersSpec :=
  { bob with
    Username := "empty"
    Attributes := [("is_active", []), ("is_org_admin", []), ("is_internal", []),
      ("account_id", []), ("org_id", []), ("entitlements", []), ("account_number", [])] }

/-- The entry `bob` with the enabled flag set and two attributes that are not read. -/
def bobEnabled : usersSpec :=
  { bob with
    Enabled := true
    Attributes := ("department", ["sales"]) :: bob.Attributes ++ [("is_active2", ["false"])] }

/-- A decoder for three sample bodies: a first list, a second list, and the two in a row. -/
def sampleUnmarshal (data : String) : Except String (List usersSpec) :=
  if data = "first" then .ok [erin, noAccountNumber]
  else if data = "second" then .ok [bob]
  else .ok ([erin, noAccountNumber] ++ [bob])

/-- The JSON text of an assertion of type User for the username bob. -/
def bobAssertionJSON : String :=
  "\x7b\"identity\":\x7b\"type\":\"User\",\"user\":\x7b\"username\":\"bob\"\x7d\x7d\x7d"

/-- The JSON text of an assertion of type User whose username has blanks and a capital. -/
def aliceAssertionJSON : String :=
  "\x7b\"identity\":\x7b\"type\":\"User\",\"user\":\x7b\"username\":\" Alice \"\x7d\x7d\x7d"

/-- The JSON text of an assertion of type System. -/
def systemAssertionJSON : String :=
  "\x7b\"identity\":\x7b\"type\":\"System\"\x7d\x7d"

/-- The header that is the base64 encoding of `bobAssertionJSON`. -/
def bobHeader : String :=
  "eyJpZGVudGl0eSI6eyJ0eXBlIjoiVXNlciIsInVzZXIiOnsidXNlcm5hbWUiOiJib2IifX19"

/-- The header that is the base64 encoding of `aliceAssertionJSON`. -/
def aliceHeader : String :=
  "eyJpZGVudGl0eSI6eyJ0eXBlIjoiVXNlciIsInVzZXIiOnsidXNlcm5hbWUiOiIgQWxpY2UgIn19fQ=="

/-- The header that is the base64 encoding of `systemAssertionJSON`. -/
def systemHeader : String :=
  "eyJpZGVudGl0eSI6eyJ0eXBlIjoiU3lzdGVtIn19"

/-- The header that is the base64 encoding of the JSON literal null. -/
def nullHeader : String := "bnVsbA=="

/-- The base64 decoder on the sample headers; any other string stands for a header that
is not valid base64. -/
def sampleDecodeString (s : String) : Except String String :=
  if s = bobHeader then .ok bobAssertionJSON
  else if s = aliceHeader then .ok aliceAssertionJSON
  else if s = systemHeader then .ok systemAssertionJSON
  else if s = nullHeader then .ok "null"
  else .error "illegal base64 data at input byte 0"

/-- The JSON decoder of `getUserFromIdentity` on the sample texts: the literal null sets
the pointer to nil, any other text stands for one that is not JSON. -/
def sampleUnmarshalXRHID (bytes : String) : Except String (Option XRHID) :=
  if bytes = bobAssertionJSON then
    .ok (some { Identity := { Type_ := "User", User := { Username := "bob" } } })
  else if bytes = aliceAssertionJSON then
    .ok (some { Identity := { Type_ := "User", User := { Username := " Alice " } } })
  else if bytes = systemAssertionJSON then
    .ok (some { Identity := { Type_ := "System", User := { Username := "" } } })
  else if bytes = "null" then .ok none
  else .error "invalid character"

/-- A call of `k.Get` that fails to connect: a nil response and an error. -/
def downGet : GetResult :=
  { resp := none, err := some "dial tcp 127.0.0.1:8080: connect: connection refused" }

/-! ## The loop of parseUsers in closed form -/

theorem checkAttributes_iff (e : usersSpec) : checkAttributes e = true ↔ HasRequired e := by
  simp only [checkAttributes, attributesToCheck, List.foldl, HasRequired, List.length_eq_zero]
  split_ifs <;> simp_all

theorem loop_cons_kept (e : usersSpec) (rest : List usersSpec) (users : List User)
    (h : HasRequired e) :
    parseUsers.loop (e :: rest) users = parseUsers.loop rest (users ++ [recordOf e]) := by
  have hc := (checkAttributes_iff e).2 h
  obtain ⟨h1, h2, h3, h4, h5, h6, h7⟩ := h
  obtain ⟨a1, t1, e1⟩ := List.exists_cons_of_ne_nil h1
  obtain ⟨a2, t2, e2⟩ := List.exists_cons_of_ne_nil h2
  obtain ⟨a3, t3, e3⟩ := List.exists_cons_of_ne_nil h3
  obtain ⟨a4, t4, e4⟩ := List.exists_cons_of_ne_nil h4
  obtain ⟨a5, t5, e5⟩ := List.exists_cons_of_ne_nil h5
  obtain ⟨a6, t6, e6⟩ := List.exists_cons_of_ne_nil h6
  obtain ⟨a7, t7, e7⟩ := List.exists_cons_of_ne_nil h7
  rw [parseUsers.loop]
  by_cases hn : e.Attributes.index "newEntitlements" = []
  · simp [hc, e1, e2, e3, e4, e5, e6, e7, hn, index0, bind, GoResult.bind, recordOf,
      firstValue]
  · simp [hc, e1, e2, e3, e4, e5, e6, e7, hn, index0, bind, GoResult.bind, recordOf,
      firstValue, pure]

theorem loop_cons_dropped (e : usersSpec) (rest : List usersSpec) (users : List User)
    (h : ¬ HasRequired e) :
    parseUsers.loop (e :: rest) users = parseUsers.loop rest users := by
  have hc : checkAttributes e = false := by
    rw [← Bool.not_eq_true, checkAttributes_iff]; exact h
  rw [parseUsers.loop]
  simp [hc]

theorem loop_eq (entries : List usersSpec) (users : List User) :
    parseUsers.loop entries users = .ok (users ++ (keptEntries entries).map recordOf) := by
  induction entries generalizing users with
  | nil => simp [parseUsers.loop, keptEntries]
  | cons e rest ih =>
    by_cases h : HasRequired e
    · rw [loop_cons_kept e rest users h, ih]
      simp [keptEntries, h]
    · rw [loop_cons_dropped e rest users h, ih]
      simp [keptEntries, h]

theorem parseUsers_eq (unmarshal : String → Except String (List usersSpec)) (data : String)
    (entries : List usersSpec) (h : unmarshal data = .ok entries) :
    parseUsers unmarshal data = .ok ((keptEntries entries).map recordOf) := by
  simp [parseUsers, h, loop_eq]

theorem mem_keptEntries {entries : List usersSpec} {e : usersSpec} :
    e ∈ keptEntries entries ↔ e ∈ entries ∧ HasRequired e := by
  simp [keptEntries, List.mem_filter]

theorem forall₂_kept (R : usersSpec → User → Prop) (entries : List usersSpec)
    (hR : ∀ e, HasRequired e → R e (recordOf e)) :
    List.Forall₂ R (keptEntries entries) ((keptEntries entries).map recordOf) := by
  rw [List.forall₂_map_right_iff, List.forall₂_same]
  intro e he
  exact hR e (mem_keptEntries.1 he).2

theorem loop_single_kept (e : usersSpec) (h : HasRequired e) :
    parseUsers.loop [e] [] = .ok [recordOf e] := by
  simp [loop_eq, keptEntries, h]

theorem loop_single_dropped (e : usersSpec) (h : ¬ HasRequired e) :
    parseUsers.loop [e] [] = .ok [] := by
  simp [loop_eq, keptEntries, h]

theorem parseBool_coercion (s : String) : IsBoolCoercion s (ParseBool s).1 := by
  unfold IsBoolCoercion ParseBool acceptedTrue acceptedFalse
  simp only [List.mem_cons, List.mem_singleton, List.not_mem_nil, or_false]
  refine ⟨?_, ?_, ?_⟩
  · intro h
    rw [if_pos (by tauto)]
  · intro h
    split_ifs with h1 h2
    · rcases h with h | h | h | h | h | h <;> subst h <;> revert h1 <;> decide
    · rfl
    · rfl
  · intro h1 h2
    rw [if_neg (by tauto)]
    split_ifs <;> rfl

theorem findUserByID_loop_first (username : String) (before after : List User) (r : User)
    (hr : r.Username = username) (hb : ∀ x ∈ before, x.Username ≠ username) :
    findUserByID.loop username (before ++ r :: after) = .ok r := by
  induction before with
  | nil => simp [findUserByID.loop, hr]
  | cons x xs ih =>
    have hx : x.Username ≠ username := hb x (List.mem_cons_self _ _)
    simp only [List.cons_append, findUserByID.loop, if_neg hx]
    exact ih (fun y hy => hb y (List.mem_cons_of_mem _ hy))

theorem findUserByID_loop_not_known (username : String) (users : List User) :
    findUserByID.loop username users = .err (.errorf "User is not known") ↔
      ∀ u ∈ users, u.Username ≠ username := by
  induction users with
  | nil => simp [findUserByID.loop]
  | cons x xs ih =>
    by_cases hx : x.Username = username
    · simp [findUserByID.loop, hx]
    · simp [findUserByID.loop, hx, ih]

theorem exists_first_match (username : String) (users : List User)
    (h : ∃ x ∈ users, x.Username = username) :
    ∃ before r after, users = before ++ r :: after ∧
      (∀ x ∈ before, x.Username ≠ username) ∧ r.Username = username := by
  induction users with
  | nil => simp at h
  | cons x xs ih =>
    by_cases hx : x.Username = username
    · exact ⟨[], x, xs, rfl, by simp, hx⟩
    · have h2 : ∃ y ∈ xs, y.Username = username := by
        obtain ⟨y, hy, hyu⟩ := h
        rcases List.mem_cons.1 hy with rfl | hy
        · exact absurd hyu hx
        · exact ⟨y, hy, hyu⟩
      obtain ⟨before, r, after, hsplit, hb, hr⟩ := ih h2
      refine ⟨x :: before, r, after, by simp [hsplit], ?_, hr⟩
      intro y hy
      rcases List.mem_cons.1 hy with rfl | hy
      · exact hx
      · exact hb y hy

/-! ## The value of strconv.Atoi in closed form -/

theorem isDigit_sub_le (c : Char) (h : c.isDigit = true) : c.toNat - 48 ≤ 9 := by
  simp only [Char.isDigit, Bool.and_eq_true, decide_eq_true_eq, UInt32.le_def, ge_iff_le,
    BitVec.le_def] at h
  have h2 := h.2
  simp only [Char.toNat]
  have h3 : (UInt32.toBitVec 57).toNat = 57 := rfl
  have h4 : c.val.toBitVec.toNat = c.val.toNat := rfl
  omega

theorem digitsFrom_cons (n : Nat) (c : Char) (cs : List Char) :
    digitsFrom n (c :: cs) = digitsFrom (n * 10 + (c.toNat - 48)) cs := rfl

theorem le_digitsFrom (cs : List Char) (n : Nat) : n ≤ digitsFrom n cs := by
  induction cs generalizing n with
  | nil => simp [digitsFrom]
  | cons c cs ih =>
    have := ih (n * 10 + (c.toNat - 48))
    rw [digitsFrom_cons]
    omega

/-- The digit loop of `ParseUint` in closed form: a range error as soon as the digits read
pass `2 ^ 64 - 1`, else a syntax error at the first character that is no digit, else the
value. -/
theorem parseUint_loop_eq (cs : List Char) (n : Nat) (hn : n < 18446744073709551616) :
    ParseUint.loop 1844674407370955162 18446744073709551615 cs n =
      if 18446744073709551616 ≤ digitsFrom n (cs.takeWhile Char.isDigit) then
        (18446744073709551615, some .ErrRange)
      else if cs.takeWhile Char.isDigit ≠ cs then (0, some .ErrSyntax)
      else (digitsFrom n cs, none) := by
  induction cs generalizing n with
  | nil =>
    have h0 : digitsFrom n [] = n := rfl
    simp only [ParseUint.loop, List.takeWhile_nil, h0]
    rw [if_neg (by omega), if_neg (by simp)]
  | cons c cs ih =>
    by_cases hc : c.isDigit = true
    · have hd := isDigit_sub_le c hc
      have hle := le_digitsFrom (cs.takeWhile Char.isDigit) (n * 10 + (c.toNat - 48))
      simp only [ParseUint.loop, hc, if_true, List.takeWhile_cons, digitsFrom_cons,
        Nat.reducePow]
      by_cases hcut : n ≥ 1844674407370955162
      · rw [if_pos hcut, if_pos (by omega)]
      · rw [if_neg hcut]
        have h10 : n * 10 % 18446744073709551616 = n * 10 := Nat.mod_eq_of_lt (by omega)
        rw [h10]
        by_cases hov : 18446744073709551616 ≤ n * 10 + (c.toNat - 48)
        · rw [if_pos (by omega), if_pos (by omega)]
        · have h1 : (n * 10 + (c.toNat - 48)) % 18446744073709551616
              = n * 10 + (c.toNat - 48) := Nat.mod_eq_of_lt (by omega)
          rw [h1, if_neg (by omega), ih _ (by omega)]
          simp
    · have h0 : digitsFrom n [] = n := rfl
      have hc2 : c.isDigit = false := by simpa using hc
      simp only [ParseUint.loop, hc2, List.takeWhile_cons, Bool.false_eq_true, if_false, h0]
      rw [if_neg (by omega), if_pos (by simp)]

theorem parseUint_eq (body : List Char) :
    ParseUint body =
      if body = [] then (0, some .ErrSyntax)
      else if 18446744073709551616 ≤ digitsFrom 0 (body.takeWhile Char.isDigit) then
        (18446744073709551615, some .ErrRange)
      else if body.takeWhile Char.isDigit ≠ body then (0, some .ErrSyntax)
      else (digitsFrom 0 body, none) := by
  unfold ParseUint
  by_cases h : body = []
  · rw [if_pos h, if_pos h]
  · rw [if_neg h, if_neg h]
    have hcut : (2 ^ 64 - 1) / 10 + 1 = 1844674407370955162 := by norm_num
    have hmax : 2 ^ intSize - 1 = 18446744073709551615 := by norm_num [intSize]
    simp only [hcut, hmax]
    exact parseUint_loop_eq body 0 (by omega)

theorem fastLoop_eq (cs : List Char) (n : Nat) :
    Atoi.fastLoop cs (n : Int) =
      if cs.takeWhile Char.isDigit = cs then some ((digitsFrom n cs : Nat) : Int) else none := by
  induction cs generalizing n with
  | nil => simp [Atoi.fastLoop, digitsFrom]
  | cons c cs ih =>
    by_cases hc : c.isDigit = true
    · have hcast : (n : Int) * 10 + ((c.toNat - 48 : Nat) : Int)
          = ((n * 10 + (c.toNat - 48) : Nat) : Int) := by push_cast; rfl
      simp only [Atoi.fastLoop, hc, if_true, List.takeWhile_cons, digitsFrom_cons]
      rw [hcast, ih]
      simp
    · have hc2 : c.isDigit = false := by simpa using hc
      simp [Atoi.fastLoop, hc2, List.takeWhile_cons]

theorem digitsFrom_lt (cs : List Char) (n : Nat) (h : ∀ c ∈ cs, c.isDigit = true) :
    digitsFrom n cs < (n + 1) * 10 ^ cs.length := by
  induction cs generalizing n with
  | nil => simp [digitsFrom]
  | cons c cs ih =>
    have hd := isDigit_sub_le c (h c (List.mem_cons_self _ _))
    have := ih (n * 10 + (c.toNat - 48)) (fun x hx => h x (List.mem_cons_of_mem _ hx))
    rw [digitsFrom_cons, List.length_cons, pow_succ]
    calc digitsFrom (n * 10 + (c.toNat - 48)) cs
        < (n * 10 + (c.toNat - 48) + 1) * 10 ^ cs.length := this
      _ ≤ ((n + 1) * 10) * 10 ^ cs.length := Nat.mul_le_mul_right _ (by omega)
      _ = (n + 1) * (10 ^ cs.length * 10) := by ring

theorem length_le_utf8Len (cs : List Char) : cs.length ≤ String.utf8Len cs := by
  induction cs with
  | nil => simp
  | cons c cs ih =>
    have := Char.utf8Size_pos c
    simp only [List.length_cons, String.utf8Len_cons]
    omega

theorem leadingDigits_value_lt (cs : List Char) (h : cs.length ≤ 18) :
    digitsFrom 0 (cs.takeWhile Char.isDigit) < 10 ^ 18 := by
  have h1 := digitsFrom_lt (cs.takeWhile Char.isDigit) 0
    (fun c hc => (List.mem_takeWhile_imp hc))
  have h2 : (cs.takeWhile Char.isDigit).length ≤ 18 :=
    le_trans (List.takeWhile_sublist _).length_le h
  have h3 : 10 ^ (cs.takeWhile Char.isDigit).length ≤ 10 ^ 18 :=
    Nat.pow_le_pow_right (by omega) h2
  omega

theorem parseInt_cons_fst (c : Char) (cs body : List Char)
    (hb : (if c = '+' ∨ c = '-' then cs else c :: cs) = body) :
    (ParseInt (c :: cs)).1 =
      if 2 ^ 64 ≤ digitsFrom 0 (body.takeWhile Char.isDigit) then
        if c = '-' then minInt else maxInt
      else if ¬ (body ≠ [] ∧ body.takeWhile Char.isDigit = body) then 0
      else if c = '-' then
        if 2 ^ 63 < digitsFrom 0 (body.takeWhile Char.isDigit) then minInt
        else -(digitsFrom 0 (body.takeWhile Char.isDigit) : Int)
      else
        if 2 ^ 63 ≤ digitsFrom 0 (body.takeWhile Char.isDigit) then maxInt
        else (digitsFrom 0 (body.takeWhile Char.isDigit) : Int) := by
  unfold ParseInt
  simp only [hb, parseUint_eq, Nat.reducePow]
  by_cases h0 : body = []
  · subst h0
    simp [digitsFrom]
  · simp only [h0, if_false, ne_eq, not_false_eq_true, true_and]
    by_cases h1 : 18446744073709551616 ≤ digitsFrom 0 (body.takeWhile Char.isDigit)
    · simp only [h1, if_true]
      by_cases hc : c = '-'
      · simp [hc, intSize, minInt]
      · simp [hc, intSize, maxInt]
    · simp only [h1, if_false]
      by_cases h2 : body.takeWhile Char.isDigit = body
      · simp only [h2, not_true_eq_false, if_false, intSize] at h1 ⊢
        by_cases hc : c = '-'
        · by_cases h3 : 9223372036854775808 < digitsFrom 0 body
          · simp [hc, h3, minInt]
          · simp [hc, h3]
        · by_cases h3 : 9223372036854775808 ≤ digitsFrom 0 body
          · simp [hc, h3, maxInt]
          · simp [hc, h3]
      · simp [h2]

theorem atoi_cons (c : Char) (cs : List Char) :
    (Atoi ⟨c :: cs⟩).1 = atoiValue ⟨c :: cs⟩ := by
  have hU : unsignedPart ⟨c :: cs⟩ = (if c = '+' ∨ c = '-' then cs else c :: cs) := rfl
  have hM : startsWithMinus ⟨c :: cs⟩ ↔ c = '-' := by simp [startsWithMinus]
  have hR : (if c = '-' ∨ c = '+' then cs else c :: cs)
      = (if c = '+' ∨ c = '-' then cs else c :: cs) := by simp only [or_comm]
  simp only [atoiValue, IsDecimal, leadingDigits, digitsValue, hU, hM]
  unfold Atoi
  simp only [String.utf8ByteSize_mk, hR]
  generalize hb : (if c = '+' ∨ c = '-' then cs else c :: cs) = body
  have hlen : body.length ≤ String.utf8Len (c :: cs) := by
    have h1 := length_le_utf8Len (c :: cs)
    have h2 : body.length ≤ (c :: cs).length := by
      subst hb; split_ifs <;> simp
    omega
  have hpos : 0 < String.utf8Len (c :: cs) := by
    have := Char.utf8Size_pos c
    simp only [String.utf8Len_cons]
    omega
  by_cases hfast : String.utf8Len (c :: cs) < 19
  · have hv := leadingDigits_value_lt body (by omega)
    have hloop := fastLoop_eq body 0
    simp only [Nat.cast_zero] at hloop
    rw [if_pos (Or.inr ⟨rfl, hpos, hfast⟩)]
    by_cases h0 : body = []
    · subst h0
      simp [digitsFrom]
    · have hlen1 : ¬ body.length < 1 := by
        have := List.length_pos.2 h0
        omega
      rw [if_neg hlen1]
      by_cases h2 : body.takeWhile Char.isDigit = body
      · rw [h2] at hv
        have hv64 : ¬ 2 ^ 64 ≤ digitsFrom 0 body := by omega
        have hv63 : ¬ 2 ^ 63 ≤ digitsFrom 0 body := by omega
        have hv63b : ¬ 2 ^ 63 < digitsFrom 0 body := by omega
        simp only [hloop, h2, if_true, h0, ne_eq, not_false_eq_true, and_self,
          not_true_eq_false, if_false, hv64, hv63, hv63b]
      · have hv64 : ¬ 2 ^ 64 ≤ digitsFrom 0 (body.takeWhile Char.isDigit) := by omega
        simp only [hloop, h2, if_false, and_false, not_false_eq_true, if_true, hv64]
  · rw [if_neg (by simp only [intSize]; omega)]
    rw [← parseInt_cons_fst c cs body hb]
    rcases ParseInt (c :: cs) with ⟨i, _ | k⟩ <;> rfl

theorem atoi_fst (s : String) : (Atoi s).1 = atoiValue s := by
  rcases s with ⟨_ | ⟨c, cs⟩⟩
  · decide
  · exact atoi_cons c cs

theorem atoiValue_coercion (s : String) : IsIntCoercion s (atoiValue s) := by
  unfold IsIntCoercion atoiValue
  simp only [Nat.reducePow]
  refine ⟨?_, ?_, ?_, ?_, ?_, ?_, ?_⟩
  · intro hd hm hv
    rw [if_neg (by omega), if_neg (by simpa using hd), if_neg hm, if_neg (by omega)]
  · intro hd hm hv
    rw [if_neg (by omega), if_neg (by simpa using hd), if_pos hm, if_neg (by omega)]
  · intro hd hm hv
    by_cases h64 : 18446744073709551616 ≤ digitsValue (leadingDigits s)
    · rw [if_pos h64, if_neg hm]
    · rw [if_neg h64, if_neg (by simpa using hd), if_neg hm, if_pos hv]
  · intro hd hm hv
    by_cases h64 : 18446744073709551616 ≤ digitsValue (leadingDigits s)
    · rw [if_pos h64, if_pos hm]
    · rw [if_neg h64, if_neg (by simpa using hd), if_pos hm, if_pos hv]
  · intro hd hv
    rw [if_neg (by omega), if_pos hd]
  · intro _ hm hv
    rw [if_pos hv, if_neg hm]
  · intro _ hm hv
    rw [if_pos hv, if_pos hm]

theorem atoi_coercion (s : String) : IsIntCoercion s (Atoi s).1 := by
  rw [atoi_fst]
  exact atoiValue_coercion s

/-! ## Independence of the entries and of the inputs that are not read -/

theorem keptEntries_append (a b : List usersSpec) :
    keptEntries (a ++ b) = keptEntries a ++ keptEntries b := by
  simp [keptEntries, List.filter_append]

theorem keptEntries_length_le (entries : List usersSpec) :
    (keptEntries entries).length ≤ entries.length := by
  simp only [keptEntries]
  exact List.length_filter_le _ _

theorem recordOf_congr (e1 e2 : usersSpec) (h : SameRead e1 e2) : recordOf e1 = recordOf e2 := by
  obtain ⟨hu, hf, hl, hm, ha⟩ := h
  have h1 := ha "is_active" (by simp [readAttributes])
  have h2 := ha "is_org_admin" (by simp [readAttributes])
  have h3 := ha "is_internal" (by simp [readAttributes])
  have h4 := ha "account_id" (by simp [readAttributes])
  have h5 := ha "org_id" (by simp [readAttributes])
  have h6 := ha "entitlements" (by simp [readAttributes])
  have h7 := ha "account_number" (by simp [readAttributes])
  have h8 := ha "newEntitlements" (by simp [readAttributes])
  simp only [recordOf, firstValue, hu, hf, hl, hm, h1, h2, h3, h4, h5, h6, h7, h8]

theorem hasRequired_congr (e1 e2 : usersSpec) (h : SameRead e1 e2) :
    HasRequired e1 ↔ HasRequired e2 := by
  obtain ⟨-, -, -, -, ha⟩ := h
  have h1 := ha "is_active" (by simp [readAttributes])
  have h2 := ha "is_org_admin" (by simp [readAttributes])
  have h3 := ha "is_internal" (by simp [readAttributes])
  have h4 := ha "account_id" (by simp [readAttributes])
  have h5 := ha "org_id" (by simp [readAttributes])
  have h6 := ha "entitlements" (by simp [readAttributes])
  have h7 := ha "account_number" (by simp [readAttributes])
  simp only [HasRequired, h1, h2, h3, h4, h5, h6, h7]

theorem kept_records_congr (l1 l2 : List usersSpec) (h : List.Forall₂ SameRead l1 l2) :
    (keptEntries l1).map recordOf = (keptEntries l2).map recordOf := by
  induction h with
  | nil => rfl
  | @cons a b l1 l2 hab _ ih =>
    have hr := hasRequired_congr a b hab
    have hc := recordOf_congr a b hab
    by_cases ha : HasRequired a
    · have hb : HasRequired b := hr.1 ha
      simp only [keptEntries, List.filter_cons, ha, hb, decide_True, if_true, List.map_cons,
        hc] at ih ⊢
      rw [ih]
    · have hb : ¬ HasRequired b := fun hb => ha (hr.2 hb)
      simp only [keptEntries, List.filter_cons, ha, hb, decide_False, Bool.false_eq_true,
        if_false] at ih ⊢
      exact ih

theorem sameRead_enabled (e : usersSpec) (b : Bool) : SameRead e { e with Enabled := b } :=
  ⟨rfl, rfl, rfl, rfl, fun _ _ => rfl⟩

theorem sameRead_other_attribute (e : usersSpec) (key : String) (vals : List String)
    (hkey : key ∉ readAttributes) :
    SameRead e { e with Attributes := (key, vals) :: e.Attributes } := by
  refine ⟨rfl, rfl, rfl, rfl, ?_⟩
  intro k hk
  have hne : (k == key) = false := by
    rw [beq_eq_false_iff_ne]
    rintro rfl
    exact hkey hk
  simp [AttrMap.index, List.lookup, hne]

/-! ## The handlers -/

/-- What the two endpoints write when `getUserFromIdentity` returns: for an error, the
status 403 and a plain text message that ends with the text of the error; for a user, the
status 200 and the Entitlements string of the user, or the fixed text of `compliance`. -/
theorem handlers_on_result
    (DecodeString : String → Except String String)
    (unmarshalXRHID : String → Except String (Option XRHID))
    (unmarshal : String → Except String (List usersSpec)) (get : GetResult) (r : Request) :
    (∀ e, (getUserFromIdentity DecodeString unmarshalXRHID unmarshal get r.xRhIdentity).1
        = .err e →
      entitlements DecodeString unmarshalXRHID unmarshal get r
        = .reply { status := 403, contentType := some "text/plain; charset=utf-8",
                   body := "couldn\x27t auth user: couldn\x27t find user: " ++ e.Error ++ "\n" } ∧
      compliance DecodeString unmarshalXRHID unmarshal get r
        = .reply { status := 403, contentType := some "text/plain; charset=utf-8",
                   body := "couldn\x27t auth user: couldn\x27t find user: " ++ e.Error ++ "\n" }) ∧
    (∀ u, (getUserFromIdentity DecodeString unmarshalXRHID unmarshal get r.xRhIdentity).1
        = .ok u →
      entitlements DecodeString unmarshalXRHID unmarshal get r
        = .reply { status := 200, contentType := none, body := u.Entitlements } ∧
      compliance DecodeString unmarshalXRHID unmarshal get r
        = .reply { status := 200, contentType := none,
                   body := "\"result\": \"OK\"\n\"description\":\"\" " }) := by
  constructor
  · intro e he
    have hlit : "couldn\x27t auth user: " ++ "couldn\x27t find user: "
        = "couldn\x27t auth user: couldn\x27t find user: " := by decide
    have hmsg : "couldn\x27t auth user: " ++ ("couldn\x27t find user: " ++ e.Error)
        = "couldn\x27t auth user: couldn\x27t find user: " ++ e.Error := by
      rw [← String.append_assoc, hlit]
    have herr : ∀ m : String, (GoError.errorf m).Error = m := fun _ => rfl
    simp only [entitlements, compliance, getUser, he, httpError, StatusForbidden, herr, hmsg,
      and_self]
  · intro u hu
    simp [entitlements, compliance, getUser, hu]

/-! ## Claims -/

/-- Claim C1. Whenever the body decodes to `entries`, `parseUsers` returns a list (and a
nil error) whose records stand, one for one and in order, for the entries that have all
seven required attributes non-empty: each record is what the loop appends for its entry.
An entry lacking one of the seven contributes no record, whatever else it carries. -/
theorem parseUsers_keeps_exactly_required
    (unmarshal : String → Except String (List usersSpec)) (data : String)
    (entries : List usersSpec) (h : unmarshal data = .ok entries) :
    ∃ out, parseUsers unmarshal data = .ok out ∧
      List.Forall₂ (fun e u => parseUsers.loop [e] [] = .ok [u])
        (entries.filter (fun e => decide (HasRequired e))) out ∧
      out.length = (entries.filter (fun e => decide (HasRequired e))).length ∧
      ∀ e, ¬ HasRequired e → parseUsers.loop [e] [] = .ok [] := by
  refine ⟨_, parseUsers_eq unmarshal data entries h, ?_, ?_, ?_⟩
  · exact forall₂_kept _ entries (fun e he => loop_single_kept e he)
  · simp [keptEntries]
  · exact fun e he => loop_single_dropped e he

theorem parseUsers_keeps_exactly_required_witness :
    decodesTo [bob, noAccountNumber] "[]" = .ok [bob, noAccountNumber] ∧
    ∃ out, parseUsers (decodesTo [bob, noAccountNumber]) "[]" = .ok out ∧
      List.Forall₂ (fun e u => parseUsers.loop [e] [] = .ok [u])
        ([bob, noAccountNumber].filter (fun e => decide (HasRequired e))) out ∧
      out.length = ([bob, noAccountNumber].filter (fun e => decide (HasRequired e))).length ∧
      ∀ e, ¬ HasRequired e → parseUsers.loop [e] [] = .ok [] :=
  ⟨rfl, parseUsers_keeps_exactly_required _ _ _ rfl⟩

/-- Claim C2. Whenever the body decodes to `entries`, each record that `parseUsers`
outputs for an entry whose newEntitlements attribute has one or more values has as
Entitlements an opening brace, those values joined with commas, and a closing brace,
whatever the entitlements attribute holds; the values x, y give the braces around `x,y`. -/
theorem parseUsers_newEntitlements
    (unmarshal : String → Except String (List usersSpec)) (data : String)
    (entries : List usersSpec) (h : unmarshal data = .ok entries) :
    ∃ out, parseUsers unmarshal data = .ok out ∧
      List.Forall₂
        (fun e u =>
          (e.Attributes.index "newEntitlements" ≠ [] →
            u.Entitlements =
              "\x7b" ++ ",".intercalate (e.Attributes.index "newEntitlements") ++ "\x7d") ∧
          (e.Attributes.index "newEntitlements" = ["x", "y"] → u.Entitlements = "\x7bx,y\x7d"))
        (entries.filter (fun e => decide (HasRequired e))) out := by
  refine ⟨_, parseUsers_eq unmarshal data entries h, ?_⟩
  refine forall₂_kept _ entries (fun e _ => ⟨?_, ?_⟩)
  · intro hne
    simp [recordOf, hne, stringsJoin]
  · intro hxy
    simp [recordOf, hxy, stringsJoin]
    decide

theorem parseUsers_newEntitlements_witness :
    decodesTo [erin] "[]" = .ok [erin] ∧
    ∃ out, parseUsers (decodesTo [erin]) "[]" = .ok out ∧
      List.Forall₂
        (fun e u =>
          (e.Attributes.index "newEntitlements" ≠ [] →
            u.Entitlements =
              "\x7b" ++ ",".intercalate (e.Attributes.index "newEntitlements") ++ "\x7d") ∧
          (e.Attributes.index "newEntitlements" = ["x", "y"] → u.Entitlements = "\x7bx,y\x7d"))
        ([erin].filter (fun e => decide (HasRequired e))) out :=
  ⟨rfl, parseUsers_newEntitlements _ _ _ rfl⟩

/-- Claim C3, refuted as stated. The entry `carol` has is_active, is_org_admin,
is_internal, account_id, org_id and account_number non-empty and newEntitlements
non-empty, its entitlements attribute is absent, and `parseUsers` outputs no record. -/
theorem newEntitlements_alone_is_dropped :
    carol.Attributes.index "is_active" ≠ [] ∧ carol.Attributes.index "is_org_admin" ≠ [] ∧
    carol.Attributes.index "is_internal" ≠ [] ∧ carol.Attributes.index "account_id" ≠ [] ∧
    carol.Attributes.index "org_id" ≠ [] ∧ carol.Attributes.index "account_number" ≠ [] ∧
    carol.Attributes.index "newEntitlements" ≠ [] ∧
    carol.Attributes.index "entitlements" = [] ∧
    parseUsers (decodesTo [carol]) "[]" = .ok [] := by
  decide

/-- Claim C3, amended. The entitlements attribute is required also when newEntitlements is
present. For an entry `e` anywhere in the decoded list whose six other required attributes
and newEntitlements are non-empty: when entitlements is absent or empty the output is that
of the list without `e`; when entitlements is non-empty the output has one record for `e`,
between the records of the entries before and after it, with the username of `e` and the
Entitlements built from newEntitlements. -/
theorem entitlements_required_with_newEntitlements
    (unmarshal : String → Except String (List usersSpec)) (data : String)
    (before after : List usersSpec) (e : usersSpec)
    (h : unmarshal data = .ok (before ++ e :: after))
    (h1 : e.Attributes.index "is_active" ≠ []) (h2 : e.Attributes.index "is_org_admin" ≠ [])
    (h3 : e.Attributes.index "is_internal" ≠ []) (h4 : e.Attributes.index "account_id" ≠ [])
    (h5 : e.Attributes.index "org_id" ≠ []) (h7 : e.Attributes.index "account_number" ≠ [])
    (hnew : e.Attributes.index "newEntitlements" ≠ []) :
    (e.Attributes.index "entitlements" = [] →
      parseUsers unmarshal data = parseUsers.loop (before ++ after) []) ∧
    (e.Attributes.index "entitlements" ≠ [] →
      ∃ outBefore u outAfter,
        parseUsers.loop before [] = .ok outBefore ∧ parseUsers.loop after [] = .ok outAfter ∧
        parseUsers unmarshal data = .ok (outBefore ++ u :: outAfter) ∧
        u.Username = e.Username ∧
        u.Entitlements =
          "\x7b" ++ ",".intercalate (e.Attributes.index "newEntitlements") ++ "\x7d") := by
  rw [parseUsers_eq unmarshal data _ h]
  constructor
  · intro h6
    have hd : ¬ HasRequired e := fun hr => hr.2.2.2.2.2.1 h6
    simp [loop_eq, keptEntries, List.filter_append, hd]
  · intro h6
    have hk : HasRequired e := ⟨h1, h2, h3, h4, h5, h6, h7⟩
    refine ⟨_, recordOf e, _, loop_eq before [], loop_eq after [], ?_, rfl, ?_⟩
    · simp [keptEntries, List.filter_append, hk]
    · simp [recordOf, hnew, stringsJoin]

theorem entitlements_required_with_newEntitlements_witness :
    parseUsers (decodesTo ([bob] ++ carol :: [erin])) "[]"
      = parseUsers.loop ([bob] ++ [erin]) [] :=
  (entitlements_required_with_newEntitlements (decodesTo ([bob] ++ carol :: [erin])) "[]"
    [bob] [erin] carol rfl (by decide) (by decide) (by decide) (by decide) (by decide)
    (by decide) (by decide)).1 (by decide)

/-- Claim C4. Whenever the body decodes to `entries`, each record that `parseUsers`
outputs for an entry whose newEntitlements attribute is absent or has no values has as
Entitlements the first value of the entitlements attribute, unchanged; the values after
the first play no part, and the single value foo gives foo. -/
theorem parseUsers_entitlements_first_value
    (unmarshal : String → Except String (List usersSpec)) (data : String)
    (entries : List usersSpec) (h : unmarshal data = .ok entries) :
    ∃ out, parseUsers unmarshal data = .ok out ∧
      List.Forall₂
        (fun e u =>
          e.Attributes.index "newEntitlements" = [] →
            (∃ v later, e.Attributes.index "entitlements" = v :: later ∧ u.Entitlements = v) ∧
            (e.Attributes.index "entitlements" = ["foo"] → u.Entitlements = "foo"))
        (entries.filter (fun e => decide (HasRequired e))) out := by
  refine ⟨_, parseUsers_eq unmarshal data entries h, ?_⟩
  refine forall₂_kept _ entries (fun e he hnew => ⟨?_, ?_⟩)
  · obtain ⟨v, later, hv⟩ := List.exists_cons_of_ne_nil he.2.2.2.2.2.1
    exact ⟨v, later, hv, by simp [recordOf, hnew, firstValue, hv]⟩
  · intro hfoo
    simp [recordOf, hnew, firstValue, hfoo]

theorem parseUsers_entitlements_first_value_witness :
    decodesTo [bob] "[]" = .ok [bob] ∧
    ∃ out, parseUsers (decodesTo [bob]) "[]" = .ok out ∧
      List.Forall₂
        (fun e u =>
          e.Attributes.index "newEntitlements" = [] →
            (∃ v later, e.Attributes.index "entitlements" = v :: later ∧ u.Entitlements = v) ∧
            (e.Attributes.index "entitlements" = ["foo"] → u.Entitlements = "foo"))
        ([bob].filter (fun e => decide (HasRequired e))) out :=
  ⟨rfl, parseUsers_entitlements_first_value _ _ _ rfl⟩

/-- Claim C5, refuted as stated. The entry `grace` has as first account_id value a string
of twenty nines, a digit string too large for `int`, and as first org_id value the same
with a minus sign. It is output, and its ID is the largest `int`, not 0; its OrgID is the
smallest `int`, not 0. -/
theorem parseUsers_overflow_not_zero :
    firstValue grace "account_id" = some "99999999999999999999" ∧
    firstValue grace "org_id" = some "-99999999999999999999" ∧
    parseUsers (decodesTo [grace]) "[]" = .ok [graceRecord] ∧
    graceRecord.ID = 9223372036854775807 ∧ graceRecord.ID ≠ 0 ∧
    graceRecord.OrgID = -9223372036854775808 ∧ graceRecord.OrgID ≠ 0 := by
  decide

/-- Claim C5, amended. Whenever the body decodes to `entries`, `parseUsers` returns a list
with a nil error, and each record it outputs has as ID and OrgID the values that
`strconv.Atoi` gives for the first account_id and org_id values, the error put aside
(`IsIntCoercion`): the value of a decimal integer (optional sign, one or more digits)
within the range of `int`; the largest or smallest `int` for a decimal integer beyond that
range; 0 for a string that is no decimal integer (empty, a lone sign, non-numeric text),
unless its leading digits pass `2 ^ 64 - 1`, which again gives the largest or smallest
`int`. Such a string does not keep the entry out of the output. -/
theorem parseUsers_int_coercion
    (unmarshal : String → Except String (List usersSpec)) (data : String)
    (entries : List usersSpec) (h : unmarshal data = .ok entries) :
    ∃ out, parseUsers unmarshal data = .ok out ∧
      List.Forall₂
        (fun e u =>
          ∃ a b, firstValue e "account_id" = some a ∧ firstValue e "org_id" = some b ∧
            u.ID = (Atoi a).1 ∧ u.OrgID = (Atoi b).1 ∧
            IsIntCoercion a u.ID ∧ IsIntCoercion b u.OrgID ∧
            (a = "42" → u.ID = 42) ∧ (b = "-7" → u.OrgID = -7) ∧
            (a = "" ∨ a = "abc" ∨ a = "-" → u.ID = 0) ∧
            (b = "" ∨ b = "abc" ∨ b = "-" → u.OrgID = 0) ∧
            (a = "99999999999999999999" → u.ID = 9223372036854775807) ∧
            (b = "-99999999999999999999" → u.OrgID = -9223372036854775808))
        (entries.filter (fun e => decide (HasRequired e))) out := by
  refine ⟨_, parseUsers_eq unmarshal data entries h, ?_⟩
  refine forall₂_kept _ entries (fun e he => ?_)
  obtain ⟨-, -, -, h4, h5, -⟩ := he
  obtain ⟨a, t4, e4⟩ := List.exists_cons_of_ne_nil h4
  obtain ⟨b, t5, e5⟩ := List.exists_cons_of_ne_nil h5
  have ha : (recordOf e).ID = (Atoi a).1 := by simp [recordOf, firstValue, e4]
  have hb : (recordOf e).OrgID = (Atoi b).1 := by simp [recordOf, firstValue, e5]
  refine ⟨a, b, by simp [firstValue, e4], by simp [firstValue, e5], ha, hb, ?_, ?_, ?_, ?_,
    ?_, ?_, ?_, ?_⟩
  · rw [ha]; exact atoi_coercion a
  · rw [hb]; exact atoi_coercion b
  · rintro rfl; rw [ha]; decide
  · rintro rfl; rw [hb]; decide
  · rintro (rfl | rfl | rfl) <;> rw [ha] <;> decide
  · rintro (rfl | rfl | rfl) <;> rw [hb] <;> decide
  · rintro rfl; rw [ha]; decide
  · rintro rfl; rw [hb]; decide

theorem parseUsers_int_coercion_witness :
    decodesTo [grace, bob] "[]" = .ok [grace, bob] ∧
    ∃ out, parseUsers (decodesTo [grace, bob]) "[]" = .ok out ∧
      List.Forall₂
        (fun e u =>
          ∃ a b, firstValue e "account_id" = some a ∧ firstValue e "org_id" = some b ∧
            u.ID = (Atoi a).1 ∧ u.OrgID = (Atoi b).1 ∧
            IsIntCoercion a u.ID ∧ IsIntCoercion b u.OrgID ∧
            (a = "42" → u.ID = 42) ∧ (b = "-7" → u.OrgID = -7) ∧
            (a = "" ∨ a = "abc" ∨ a = "-" → u.ID = 0) ∧
            (b = "" ∨ b = "abc" ∨ b = "-" → u.OrgID = 0) ∧
            (a = "99999999999999999999" → u.ID = 9223372036854775807) ∧
            (b = "-99999999999999999999" → u.OrgID = -9223372036854775808))
        ([grace, bob].filter (fun e => decide (HasRequired e))) out :=
  ⟨rfl, parseUsers_int_coercion _ _ _ rfl⟩

/-- Claim C6. Whenever the body decodes to `entries`, `parseUsers` returns a list with a
nil error, and each record it outputs has as IsActive, IsOrgAdmin and IsInternal the
boolean coercions of the first values of is_active, is_org_admin and is_internal (the
values `strconv.ParseBool` gives): true exactly for the accepted true literals, and false
for every string that is no boolean literal, such as yes, the empty string, and TRUE
followed by a blank. Such a string does not keep the entry out of the output. -/
theorem parseUsers_bool_coercion
    (unmarshal : String → Except String (List usersSpec)) (data : String)
    (entries : List usersSpec) (h : unmarshal data = .ok entries) :
    ∃ out, parseUsers unmarshal data = .ok out ∧
      List.Forall₂
        (fun e u =>
          ∃ a b c, firstValue e "is_active" = some a ∧ firstValue e "is_org_admin" = some b ∧
            firstValue e "is_internal" = some c ∧
            u.IsActive = (ParseBool a).1 ∧ u.IsOrgAdmin = (ParseBool b).1 ∧
            u.IsInternal = (ParseBool c).1 ∧
            IsBoolCoercion a u.IsActive ∧ IsBoolCoercion b u.IsOrgAdmin ∧
            IsBoolCoercion c u.IsInternal ∧
            (a = "yes" ∨ a = "" ∨ a = "TRUE " → u.IsActive = false) ∧
            (b = "yes" ∨ b = "" ∨ b = "TRUE " → u.IsOrgAdmin = false) ∧
            (c = "yes" ∨ c = "" ∨ c = "TRUE " → u.IsInternal = false))
        (entries.filter (fun e => decide (HasRequired e))) out := by
  refine ⟨_, parseUsers_eq unmarshal data entries h, ?_⟩
  refine forall₂_kept _ entries (fun e he => ?_)
  obtain ⟨h1, h2, h3, -⟩ := he
  obtain ⟨a, t1, e1⟩ := List.exists_cons_of_ne_nil h1
  obtain ⟨b, t2, e2⟩ := List.exists_cons_of_ne_nil h2
  obtain ⟨c, t3, e3⟩ := List.exists_cons_of_ne_nil h3
  have ha : (recordOf e).IsActive = (ParseBool a).1 := by simp [recordOf, firstValue, e1]
  have hb : (recordOf e).IsOrgAdmin = (ParseBool b).1 := by simp [recordOf, firstValue, e2]
  have hc : (recordOf e).IsInternal = (ParseBool c).1 := by simp [recordOf, firstValue, e3]
  have hlit : ∀ s : String, s = "yes" ∨ s = "" ∨ s = "TRUE " → (ParseBool s).1 = false := by
    intro s hs
    rcases hs with hs | hs | hs <;> subst hs <;> decide
  refine ⟨a, b, c, by simp [firstValue, e1], by simp [firstValue, e2],
    by simp [firstValue, e3], ha, hb, hc, ?_, ?_, ?_, ?_, ?_, ?_⟩
  · rw [ha]; exact parseBool_coercion a
  · rw [hb]; exact parseBool_coercion b
  · rw [hc]; exact parseBool_coercion c
  · rw [ha]; exact hlit a
  · rw [hb]; exact hlit b
  · rw [hc]; exact hlit c

theorem parseUsers_bool_coercion_witness :
    decodesTo [frank] "[]" = .ok [frank] ∧
    ∃ out, parseUsers (decodesTo [frank]) "[]" = .ok out ∧
      List.Forall₂
        (fun e u =>
          ∃ a b c, firstValue e "is_active" = some a ∧ firstValue e "is_org_admin" = some b ∧
            firstValue e "is_internal" = some c ∧
            u.IsActive = (ParseBool a).1 ∧ u.IsOrgAdmin = (ParseBool b).1 ∧
            u.IsInternal = (ParseBool c).1 ∧
            IsBoolCoercion a u.IsActive ∧ IsBoolCoercion b u.IsOrgAdmin ∧
            IsBoolCoercion c u.IsInternal ∧
            (a = "yes" ∨ a = "" ∨ a = "TRUE " → u.IsActive = false) ∧
            (b = "yes" ∨ b = "" ∨ b = "TRUE " → u.IsOrgAdmin = false) ∧
            (c = "yes" ∨ c = "" ∨ c = "TRUE " → u.IsInternal = false))
        ([frank].filter (fun e => decide (HasRequired e))) out :=
  ⟨rfl, parseUsers_bool_coercion _ _ _ rfl⟩

/-- Claim C7. Whenever the body decodes to `entries`, each record that `parseUsers` outputs
copies Username, Email, FirstName and LastName from its entry, has the first
account_number value as AccountNumber, the entry's firstName as DisplayName, and the
constants unknown, en_US and User as AddressString, Locale and Type. When the entries are
the single entry `bob` of the scenario, the output is the single record `bobRecord`. -/
theorem parseUsers_copies_fields
    (unmarshal : String → Except String (List usersSpec)) (data : String)
    (entries : List usersSpec) (h : unmarshal data = .ok entries) :
    ∃ out, parseUsers unmarshal data = .ok out ∧
      List.Forall₂
        (fun e u =>
          u.Username = e.Username ∧ u.Email = e.Email ∧ u.FirstName = e.FirstName ∧
          u.LastName = e.LastName ∧ firstValue e "account_number" = some u.AccountNumber ∧
          u.DisplayName = e.FirstName ∧ u.AddressString = "unknown" ∧ u.Locale = "en_US" ∧
          u.Type_ = "User")
        (entries.filter (fun e => decide (HasRequired e))) out ∧
      (entries = [bob] → out = [bobRecord]) := by
  refine ⟨_, parseUsers_eq unmarshal data entries h, ?_, ?_⟩
  · refine forall₂_kept _ entries (fun e he => ?_)
    obtain ⟨v, t, hv⟩ := List.exists_cons_of_ne_nil he.2.2.2.2.2.2
    simp [recordOf, firstValue, hv]
  · intro hb
    subst hb
    decide

theorem parseUsers_copies_fields_witness :
    decodesTo [bob] "[]" = .ok [bob] ∧
    ∃ out, parseUsers (decodesTo [bob]) "[]" = .ok out ∧
      List.Forall₂
        (fun e u =>
          u.Username = e.Username ∧ u.Email = e.Email ∧ u.FirstName = e.FirstName ∧
          u.LastName = e.LastName ∧ firstValue e "account_number" = some u.AccountNumber ∧
          u.DisplayName = e.FirstName ∧ u.AddressString = "unknown" ∧ u.Locale = "en_US" ∧
          u.Type_ = "User")
        ([bob].filter (fun e => decide (HasRequired e))) out ∧
      ([bob] = [bob] → out = [bobRecord]) :=
  ⟨rfl, parseUsers_copies_fields _ _ _ rfl⟩

/-- Claim C8. Whenever the body decodes to `entries`, the usernames of the records that
`parseUsers` outputs are the usernames of the entries having the seven required
attributes, in input order, each once; and any other run whose body decodes to the same
entries returns the same list. -/
theorem parseUsers_order_preserving
    (unmarshal : String → Except String (List usersSpec)) (data : String)
    (entries : List usersSpec) (h : unmarshal data = .ok entries) :
    ∃ out, parseUsers unmarshal data = .ok out ∧
      out.map (fun u => u.Username)
        = (entries.filter (fun e => decide (HasRequired e))).map (fun e => e.Username) ∧
      ∀ (unmarshal2 : String → Except String (List usersSpec)) (data2 : String),
        unmarshal2 data2 = .ok entries → parseUsers unmarshal2 data2 = .ok out := by
  refine ⟨_, parseUsers_eq unmarshal data entries h, ?_, ?_⟩
  · simp [keptEntries, List.map_map, Function.comp_def, recordOf]
  · intro unmarshal2 data2 h2
    exact parseUsers_eq unmarshal2 data2 entries h2

theorem parseUsers_order_preserving_witness :
    decodesTo [erin, noAccountNumber, bob, bobAgain] "[]"
      = .ok [erin, noAccountNumber, bob, bobAgain] ∧
    ∃ out, parseUsers (decodesTo [erin, noAccountNumber, bob, bobAgain]) "[]" = .ok out ∧
      out.map (fun u => u.Username)
        = ([erin, noAccountNumber, bob, bobAgain].filter
            (fun e => decide (HasRequired e))).map (fun e => e.Username) ∧
      ∀ (unmarshal2 : String → Except String (List usersSpec)) (data2 : String),
        unmarshal2 data2 = .ok [erin, noAccountNumber, bob, bobAgain] →
          parseUsers unmarshal2 data2 = .ok out :=
  ⟨rfl, parseUsers_order_preserving _ _ _ rfl⟩

/-- Claim C9. When `getUsers` returns the normalized directory `users` and at least one of
its records has the requested username, `findUserByID` returns, with a nil error, the
first such record in directory order: the directory splits into records of other
usernames, the returned record, and the rest (which may hold the username again). -/
theorem findUserByID_returns_first_match
    (unmarshal : String → Except String (List usersSpec)) (get : GetResult)
    (username : String) (users : List User) (hget : getUsers unmarshal get = .ok users)
    (hex : ∃ x ∈ users, x.Username = username) :
    ∃ before r after, users = before ++ r :: after ∧
      (∀ x ∈ before, x.Username ≠ username) ∧ r.Username = username ∧
      findUserByID unmarshal get username = .ok r := by
  obtain ⟨before, r, after, hsplit, hb, hr⟩ := exists_first_match username users hex
  refine ⟨before, r, after, hsplit, hb, hr, ?_⟩
  simp only [findUserByID, hget, hsplit]
  exact findUserByID_loop_first username before after r hr hb

theorem findUserByID_returns_first_match_witness :
    getUsers (decodesTo [erin, bob, bobAgain]) goodGet
      = .ok [recordOf erin, bobRecord, recordOf bobAgain] ∧
    (∃ x ∈ [recordOf erin, bobRecord, recordOf bobAgain], x.Username = "bob") ∧
    ∃ before r after, [recordOf erin, bobRecord, recordOf bobAgain] = before ++ r :: after ∧
      (∀ x ∈ before, x.Username ≠ "bob") ∧ r.Username = "bob" ∧
      findUserByID (decodesTo [erin, bob, bobAgain]) goodGet "bob" = .ok r :=
  ⟨by decide, ⟨bobRecord, by decide, by decide⟩,
    findUserByID_returns_first_match _ _ _ _ (by decide) ⟨bobRecord, by decide, by decide⟩⟩

/-- Claim C10. The result of `findUserByID` is the error `User is not known` exactly when
`getUsers` returned a directory (with a nil error) in which no record has the requested
username. In particular it is the result whenever the response body decodes to entries of
which every one with that username lacks a required attribute, so that `parseUsers`
dropped it. -/
theorem findUserByID_not_known_iff
    (unmarshal : String → Except String (List usersSpec)) (get : GetResult)
    (username : String) :
    (findUserByID unmarshal get username = .err (.errorf "User is not known") ↔
      ∃ users, getUsers unmarshal get = .ok users ∧ ∀ u ∈ users, u.Username ≠ username) ∧
    (∀ resp data entries, get.resp = some resp → resp.Body = .ok data →
      unmarshal data = .ok entries →
      (∀ e ∈ entries, e.Username = username → ¬ HasRequired e) →
      findUserByID unmarshal get username = .err (.errorf "User is not known")) := by
  have hiff : findUserByID unmarshal get username = .err (.errorf "User is not known") ↔
      ∃ users, getUsers unmarshal get = .ok users ∧ ∀ u ∈ users, u.Username ≠ username := by
    cases hg : getUsers unmarshal get with
    | ok users =>
      simp only [findUserByID, hg, findUserByID_loop_not_known]
      constructor
      · intro h; exact ⟨users, rfl, h⟩
      · rintro ⟨us, hus, h⟩
        cases hus
        exact h
    | err e =>
      have he : e ≠ .errorf "User is not known" := by
        intro he
        subst he
        unfold getUsers at hg
        split at hg
        · cases hg
        · split at hg
          · cases hg
          · unfold parseUsers at hg
            split at hg
            · cases hg
            · rw [loop_eq] at hg
              cases hg
      simp [findUserByID, hg, he]
    | panic m => simp [findUserByID, hg]
  refine ⟨hiff, ?_⟩
  intro resp data entries hresp hbody hdec hdrop
  rw [hiff]
  refine ⟨(keptEntries entries).map recordOf, ?_, ?_⟩
  · simp only [getUsers, hresp, hbody]
    exact parseUsers_eq unmarshal data entries hdec
  · intro u hu
    obtain ⟨e, he, rfl⟩ := List.mem_map.1 hu
    have hk := mem_keptEntries.1 he
    intro hname
    exact hdrop e hk.1 hname hk.2

theorem findUserByID_not_known_iff_witness :
    (∀ e ∈ [bob, noAccountNumber], e.Username = "dave" → ¬ HasRequired e) ∧
    findUserByID (decodesTo [bob, noAccountNumber]) goodGet "dave"
      = .err (.errorf "User is not known") :=
  ⟨by decide, (findUserByID_not_known_iff (decodesTo [bob, noAccountNumber]) goodGet "dave").2
    { Body := .ok "[]" } "[]" [bob, noAccountNumber] rfl rfl rfl (by decide)⟩

/-- Claim C11. `getUserFromIdentity` returns an error, with no call of `k.Get`, when the
header is empty (the missing-header error), when it is not empty and the base64 decoder
rejects it (the decoder's error), and when it decodes to an assertion whose type is not
User or whose username is empty (the invalid-subject error). Whenever `k.Get` is called,
the header has decoded to an assertion of type User with a non-empty username. -/
theorem getUserFromIdentity_rejects_before_fetch
    (DecodeString : String → Except String String)
    (unmarshalXRHID : String → Except String (Option XRHID))
    (unmarshal : String → Except String (List usersSpec)) (get : GetResult)
    (header : String) :
    (header = "" →
      getUserFromIdentity DecodeString unmarshalXRHID unmarshal get header
        = (.err (.errorf "no x-rh-identity header"), 0)) ∧
    (∀ msg, header ≠ "" → DecodeString header = .error msg →
      getUserFromIdentity DecodeString unmarshalXRHID unmarshal get header
        = (.err (.base64Err msg), 0)) ∧
    (∀ bytes x, header ≠ "" → DecodeString header = .ok bytes →
      unmarshalXRHID bytes = .ok (some x) →
      (x.Identity.Type_ ≠ "User" ∨ x.Identity.User.Username = "") →
      getUserFromIdentity DecodeString unmarshalXRHID unmarshal get header
        = (.err (.errorf "x-rh-identity does not contain username ok"), 0)) ∧
    ((getUserFromIdentity DecodeString unmarshalXRHID unmarshal get header).2 ≠ 0 →
      ∃ bytes x, header ≠ "" ∧ DecodeString header = .ok bytes ∧
        unmarshalXRHID bytes = .ok (some x) ∧
        x.Identity.Type_ = "User" ∧ x.Identity.User.Username ≠ "") := by
  refine ⟨?_, ?_, ?_, ?_⟩
  · intro h
    simp [getUserFromIdentity, h]
  · intro msg h hd
    simp [getUserFromIdentity, h, hd]
  · intro bytes x h hd hj hx
    simp only [getUserFromIdentity, h, hd, hj, if_false]
    rw [if_pos hx]
  · intro hn
    unfold getUserFromIdentity at hn
    by_cases h : header = ""
    · simp [h] at hn
    · cases hd : DecodeString header with
      | error msg => simp [h, hd] at hn
      | ok bytes =>
        cases hj : unmarshalXRHID bytes with
        | error msg => simp [h, hd, hj] at hn
        | ok o =>
          cases o with
          | none => simp [h, hd, hj] at hn
          | some x =>
            by_cases hx : x.Identity.Type_ ≠ "User" ∨ x.Identity.User.Username = ""
            · simp only [h, hd, hj, if_false, if_pos hx] at hn
              exact absurd rfl hn
            · refine ⟨bytes, x, h, rfl, hj, ?_, ?_⟩
              · by_contra hc; exact hx (Or.inl hc)
              · intro hc; exact hx (Or.inr hc)

theorem getUserFromIdentity_rejects_before_fetch_witness :
    getUserFromIdentity sampleDecodeString sampleUnmarshalXRHID (decodesTo [bob]) goodGet ""
      = (.err (.errorf "no x-rh-identity header"), 0) ∧
    getUserFromIdentity sampleDecodeString sampleUnmarshalXRHID (decodesTo [bob]) goodGet
      "not base64!" = (.err (.base64Err "illegal base64 data at input byte 0"), 0) ∧
    getUserFromIdentity sampleDecodeString sampleUnmarshalXRHID (decodesTo [bob]) goodGet
      systemHeader = (.err (.errorf "x-rh-identity does not contain username ok"), 0) :=
  ⟨(getUserFromIdentity_rejects_before_fetch sampleDecodeString sampleUnmarshalXRHID
      (decodesTo [bob]) goodGet "").1 rfl,
   (getUserFromIdentity_rejects_before_fetch sampleDecodeString sampleUnmarshalXRHID
      (decodesTo [bob]) goodGet "not base64!").2.1 _ (by decide) rfl,
   (getUserFromIdentity_rejects_before_fetch sampleDecodeString sampleUnmarshalXRHID
      (decodesTo [bob]) goodGet systemHeader).2.2.1 systemAssertionJSON
      { Identity := { Type_ := "System", User := { Username := "" } } }
      (by decide) rfl rfl (by decide)⟩

/-- Claim C12. When the header is not empty, the base64 decoder returns bytes for it, and
the JSON decoder leaves for these bytes a record of type User with a non-empty username
`u`, then `getUserFromIdentity` returns what `findUserByID` returns for exactly `u`, after
one call of `k.Get`: the username is passed on as it was decoded. -/
theorem getUserFromIdentity_looks_up_decoded_username
    (DecodeString : String → Except String String)
    (unmarshalXRHID : String → Except String (Option XRHID))
    (unmarshal : String → Except String (List usersSpec)) (get : GetResult)
    (header bytes : String) (x : XRHID) (u : String)
    (hne : header ≠ "") (hdec : DecodeString header = .ok bytes)
    (hjson : unmarshalXRHID bytes = .ok (some x))
    (htype : x.Identity.Type_ = "User") (hname : x.Identity.User.Username = u)
    (hu : u ≠ "") :
    getUserFromIdentity DecodeString unmarshalXRHID unmarshal get header
      = (findUserByID unmarshal get u, 1) := by
  subst hname
  have hx : ¬ (x.Identity.Type_ ≠ "User" ∨ x.Identity.User.Username = "") := by
    rintro (h | h)
    · exact h htype
    · exact hu h
  simp only [getUserFromIdentity, hne, hdec, hjson, if_false, if_neg hx]
  cases findUserByID unmarshal get x.Identity.User.Username <;> rfl

theorem getUserFromIdentity_looks_up_decoded_username_witness :
    getUserFromIdentity sampleDecodeString sampleUnmarshalXRHID (decodesTo [bob]) goodGet
      aliceHeader = (findUserByID (decodesTo [bob]) goodGet " Alice ", 1) :=
  getUserFromIdentity_looks_up_decoded_username sampleDecodeString sampleUnmarshalXRHID
    (decodesTo [bob]) goodGet aliceHeader aliceAssertionJSON
    { Identity := { Type_ := "User", User := { Username := " Alice " } } } " Alice "
    (by decide) rfl rfl rfl rfl (by decide)

/-- Claim C13, at the input where the code breaks it. When the header is not empty and the
base64 decoder returns bytes for it: if `json.Unmarshal` returns an error, so does
`getUserFromIdentity`, with no call of `k.Get`; but if `json.Unmarshal` returns a nil error
and has set the pointer `identity` to nil, as it does for the JSON literal null, then
`getUserFromIdentity` returns nothing: it panics on the field access of line 52. -/
theorem getUserFromIdentity_panics_on_nil_record
    (DecodeString : String → Except String String)
    (unmarshalXRHID : String → Except String (Option XRHID))
    (unmarshal : String → Except String (List usersSpec)) (get : GetResult)
    (header bytes : String) (hne : header ≠ "") (hdec : DecodeString header = .ok bytes) :
    (∀ msg, unmarshalXRHID bytes = .error msg →
      getUserFromIdentity DecodeString unmarshalXRHID unmarshal get header
        = (.err (.jsonErr msg), 0)) ∧
    (unmarshalXRHID bytes = .ok none →
      getUserFromIdentity DecodeString unmarshalXRHID unmarshal get header
        = (.panic "runtime error: invalid memory address or nil pointer dereference", 0)) := by
  constructor
  · intro msg hj
    simp [getUserFromIdentity, hne, hdec, hj]
  · intro hj
    simp [getUserFromIdentity, hne, hdec, hj]

theorem getUserFromIdentity_panics_on_nil_record_witness :
    getUserFromIdentity sampleDecodeString sampleUnmarshalXRHID (decodesTo [bob]) goodGet
      nullHeader
      = (.panic "runtime error: invalid memory address or nil pointer dereference", 0) :=
  (getUserFromIdentity_panics_on_nil_record sampleDecodeString sampleUnmarshalXRHID
    (decodesTo [bob]) goodGet nullHeader "null" (by decide) rfl).2 rfl

/-- Claim C14, at the input where the code breaks it. When `k.Get` fails and returns a nil
response with its error, `getUsers` returns nothing: it panics at the `defer` statement of
line 139. When the body is read and `json.Unmarshal` rejects it, `getUsers` returns that
error and no list. -/
theorem getUsers_panics_without_response
    (unmarshal : String → Except String (List usersSpec)) (msg : String) :
    getUsers unmarshal { resp := none, err := some msg }
      = .panic "runtime error: invalid memory address or nil pointer dereference" ∧
    (∀ data m err, unmarshal data = .error m →
      getUsers unmarshal { resp := some { Body := .ok data }, err := err }
        = .err (.jsonErr m)) := by
  constructor
  · rfl
  · intro data m err hm
    simp [getUsers, parseUsers, hm]

theorem getUsers_panics_without_response_witness :
    getUsers (decodesTo [bob]) downGet
      = .panic "runtime error: invalid memory address or nil pointer dereference" :=
  (getUsers_panics_without_response (decodesTo [bob])
    "dial tcp 127.0.0.1:8080: connect: connection refused").1

/-- Claim C15, at the input where the code breaks it. For a request to either endpoint
whose header decodes to an assertion of type User with a non-empty username, when `k.Get`
fails and returns a nil response, the handler writes no reply, neither a 403 nor any
other: it panics. -/
theorem handlers_panic_without_response
    (DecodeString : String → Except String String)
    (unmarshalXRHID : String → Except String (Option XRHID))
    (unmarshal : String → Except String (List usersSpec)) (get : GetResult)
    (header bytes : String) (x : XRHID)
    (hne : header ≠ "") (hdec : DecodeString header = .ok bytes)
    (hjson : unmarshalXRHID bytes = .ok (some x))
    (htype : x.Identity.Type_ = "User") (hname : x.Identity.User.Username ≠ "")
    (hget : get.resp = none) :
    mainHandler DecodeString unmarshalXRHID unmarshal get
        { Path := "/api/entitlements/v1/services", xRhIdentity := header }
      = .panic "runtime error: invalid memory address or nil pointer dereference" ∧
    mainHandler DecodeString unmarshalXRHID unmarshal get
        { Path := "/api/entitlements/v1/compliance", xRhIdentity := header }
      = .panic "runtime error: invalid memory address or nil pointer dereference" := by
  have hx : ¬ (x.Identity.Type_ ≠ "User" ∨ x.Identity.User.Username = "") := by
    rintro (h | h)
    · exact h htype
    · exact hname h
  have hres : (getUserFromIdentity DecodeString unmarshalXRHID unmarshal get header).1
      = .panic "runtime error: invalid memory address or nil pointer dereference" := by
    simp only [getUserFromIdentity, hne, hdec, hjson, if_false, if_neg hx, findUserByID,
      getUsers, hget]
  constructor
  · have hp : ("/api/entitlements/v1/services" : String) ≠ "/" := by decide
    simp only [mainHandler, if_neg hp, if_true, entitlements, getUser, hres]
  · have hp : ("/api/entitlements/v1/compliance" : String) ≠ "/" := by decide
    have hq : ("/api/entitlements/v1/compliance" : String) ≠ "/api/entitlements/v1/services" := by
      decide
    simp only [mainHandler, if_neg hp, if_neg hq, if_true, compliance, getUser, hres]

theorem handlers_panic_without_response_witness :
    mainHandler sampleDecodeString sampleUnmarshalXRHID (decodesTo [bob]) downGet
        { Path := "/api/entitlements/v1/services", xRhIdentity := bobHeader }
      = .panic "runtime error: invalid memory address or nil pointer dereference" ∧
    mainHandler sampleDecodeString sampleUnmarshalXRHID (decodesTo [bob]) downGet
        { Path := "/api/entitlements/v1/compliance", xRhIdentity := bobHeader }
      = .panic "runtime error: invalid memory address or nil pointer dereference" :=
  handlers_panic_without_response sampleDecodeString sampleUnmarshalXRHID (decodesTo [bob])
    downGet bobHeader bobAssertionJSON
    { Identity := { Type_ := "User", User := { Username := "bob" } } }
    (by decide) rfl rfl rfl (by decide) rfl

/-- Claim C16. Whenever the body decodes to `entries`, whatever they are, `parseUsers`
returns a list with a nil error: its result is neither a panic nor an error. Each entry
that passes the attribute check has a first element for every attribute of
`attributesToCheck`, so each index expression of lines 175-205 is evaluated on a non-empty
value list. An entry with a nil attribute map or with empty value lists yields no record
and no panic. -/
theorem parseUsers_never_panics
    (unmarshal : String → Except String (List usersSpec)) (data : String)
    (entries : List usersSpec) (h : unmarshal data = .ok entries) :
    (∃ out, parseUsers unmarshal data = .ok out) ∧
    (∀ m, parseUsers unmarshal data ≠ .panic m) ∧
    (∀ err, parseUsers unmarshal data ≠ .err err) ∧
    (∀ e ∈ entries, checkAttributes e = true →
      ∀ key ∈ attributesToCheck, ∃ v, index0 (e.Attributes.index key) = .ok v) ∧
    (∀ e, e.Attributes = [] → parseUsers.loop [e] [] = .ok []) ∧
    (∀ e, (∀ key ∈ attributesToCheck, e.Attributes.index key = []) →
      parseUsers.loop [e] [] = .ok []) := by
  have hp := parseUsers_eq unmarshal data entries h
  refine ⟨⟨_, hp⟩, ?_, ?_, ?_, ?_, ?_⟩
  · intro m hm
    rw [hp] at hm
    cases hm
  · intro err he
    rw [hp] at he
    cases he
  · intro e _ hc key hkey
    have hr := (checkAttributes_iff e).1 hc
    obtain ⟨h1, h2, h3, h4, h5, h6, h7⟩ := hr
    have hne : e.Attributes.index key ≠ [] := by
      simp only [attributesToCheck, List.mem_cons, List.mem_singleton, List.not_mem_nil,
        or_false] at hkey
      rcases hkey with rfl | rfl | rfl | rfl | rfl | rfl | rfl <;> assumption
    obtain ⟨v, t, hv⟩ := List.exists_cons_of_ne_nil hne
    exact ⟨v, by simp [hv, index0]⟩
  · intro e he
    apply loop_single_dropped
    intro hr
    exact hr.1 (by simp [he, AttrMap.index])
  · intro e he
    apply loop_single_dropped
    intro hr
    exact hr.1 (he "is_active" (by simp [attributesToCheck]))

theorem parseUsers_never_panics_witness :
    decodesTo [noAttributes, emptyValues, noAccountNumber, bob] "[]"
      = .ok [noAttributes, emptyValues, noAccountNumber, bob] ∧
    parseUsers (decodesTo [noAttributes, emptyValues, noAccountNumber, bob]) "[]"
      = .ok [bobRecord] ∧
    ∃ out, parseUsers (decodesTo [noAttributes, emptyValues, noAccountNumber, bob]) "[]"
      = .ok out :=
  ⟨rfl, by decide,
    (parseUsers_never_panics (decodesTo [noAttributes, emptyValues, noAccountNumber, bob]) "[]"
      [noAttributes, emptyValues, noAccountNumber, bob] rfl).1⟩

/-- Claim C17. When three bodies decode to `a`, to `b` and to `a ++ b`, the output of
`parseUsers` for the third is the output for the first followed by the output for the
second. The output is never longer than the input, and an entry lacking a required
attribute, put between `a` and `b`, changes nothing in the output. -/
theorem parseUsers_append
    (unmarshal : String → Except String (List usersSpec)) (dataA dataB dataAB : String)
    (a b : List usersSpec) (hA : unmarshal dataA = .ok a) (hB : unmarshal dataB = .ok b)
    (hAB : unmarshal dataAB = .ok (a ++ b)) :
    ∃ outA outB, parseUsers unmarshal dataA = .ok outA ∧
      parseUsers unmarshal dataB = .ok outB ∧
      parseUsers unmarshal dataAB = .ok (outA ++ outB) ∧
      outA.length ≤ a.length ∧ outB.length ≤ b.length ∧
      (outA ++ outB).length ≤ (a ++ b).length ∧
      ∀ e, ¬ HasRequired e → parseUsers.loop (a ++ e :: b) [] = .ok (outA ++ outB) := by
  refine ⟨_, _, parseUsers_eq unmarshal dataA a hA, parseUsers_eq unmarshal dataB b hB, ?_,
    ?_, ?_, ?_, ?_⟩
  · rw [parseUsers_eq unmarshal dataAB _ hAB, keptEntries_append, List.map_append]
  · simpa using keptEntries_length_le a
  · simpa using keptEntries_length_le b
  · have h1 := keptEntries_length_le a
    have h2 := keptEntries_length_le b
    simp only [List.length_append, List.length_map]
    omega
  · intro e he
    rw [loop_eq, keptEntries_append]
    simp [keptEntries, he]

theorem parseUsers_append_witness :
    ∃ outA outB, parseUsers sampleUnmarshal "first" = .ok outA ∧
      parseUsers sampleUnmarshal "second" = .ok outB ∧
      parseUsers sampleUnmarshal "both" = .ok (outA ++ outB) ∧
      outA.length ≤ [erin, noAccountNumber].length ∧ outB.length ≤ [bob].length ∧
      (outA ++ outB).length ≤ ([erin, noAccountNumber] ++ [bob]).length ∧
      ∀ e, ¬ HasRequired e →
        parseUsers.loop ([erin, noAccountNumber] ++ e :: [bob]) [] = .ok (outA ++ outB) :=
  parseUsers_append sampleUnmarshal "first" "second" "both" [erin, noAccountNumber] [bob]
    rfl rfl rfl

/-- Claim C18. When two bodies decode to entry lists of the same length whose entries
agree, place by place, in username, first name, last name, email and in the value lists of
the eight attributes that `parseUsers` reads, then `parseUsers` returns the same for both,
and so does `findUserByID` for every username when these are the bodies that `getUsers`
reads. Two entries that differ only in the enabled flag agree in this way, and so do an
entry and the same entry with one more attribute of another name. -/
theorem parseUsers_ignores_unread_inputs
    (unmarshal1 unmarshal2 : String → Except String (List usersSpec)) (data1 data2 : String)
    (entries1 entries2 : List usersSpec)
    (h1 : unmarshal1 data1 = .ok entries1) (h2 : unmarshal2 data2 = .ok entries2)
    (hsame : List.Forall₂ SameRead entries1 entries2) :
    parseUsers unmarshal1 data1 = parseUsers unmarshal2 data2 ∧
    (∀ (get1 get2 : GetResult) (username : String),
      get1.resp = some { Body := .ok data1 } → get2.resp = some { Body := .ok data2 } →
      findUserByID unmarshal1 get1 username = findUserByID unmarshal2 get2 username) ∧
    (∀ (e : usersSpec) (b : Bool), SameRead e { e with Enabled := b }) ∧
    (∀ (e : usersSpec) (key : String) (vals : List String), key ∉ readAttributes →
      SameRead e { e with Attributes := (key, vals) :: e.Attributes }) := by
  have hp : parseUsers unmarshal1 data1 = parseUsers unmarshal2 data2 := by
    rw [parseUsers_eq unmarshal1 data1 entries1 h1, parseUsers_eq unmarshal2 data2 entries2 h2,
      kept_records_congr entries1 entries2 hsame]
  refine ⟨hp, ?_, sameRead_enabled, sameRead_other_attribute⟩
  intro get1 get2 username hg1 hg2
  simp only [findUserByID, getUsers, hg1, hg2, hp]

theorem parseUsers_ignores_unread_inputs_witness :
    List.Forall₂ SameRead [bob, erin] [bobEnabled, erin] ∧
    parseUsers (decodesTo [bob, erin]) "[]" = parseUsers (decodesTo [bobEnabled, erin]) "[]" ∧
    findUserByID (decodesTo [bob, erin]) goodGet "bob"
      = findUserByID (decodesTo [bobEnabled, erin]) goodGet "bob" :=
  have hsame : List.Forall₂ SameRead [bob, erin] [bobEnabled, erin] :=
    .cons ⟨rfl, rfl, rfl, rfl, by decide⟩ (.cons ⟨rfl, rfl, rfl, rfl, fun _ _ => rfl⟩ .nil)
  ⟨hsame,
    (parseUsers_ignores_unread_inputs (decodesTo [bob, erin]) (decodesTo [bobEnabled, erin])
      "[]" "[]" [bob, erin] [bobEnabled, erin] rfl rfl hsame).1,
    (parseUsers_ignores_unread_inputs (decodesTo [bob, erin]) (decodesTo [bobEnabled, erin])
      "[]" "[]" [bob, erin] [bobEnabled, erin] rfl rfl hsame).2.1 goodGet goodGet "bob" rfl rfl⟩

end Mocktitlements
